import Mathlib

/-!
Verification development for the dex-file annotation decoder
(runtime/dex/dex_file_annotations.cc).

The byte-level codec (SkipAnnotationValue / ProcessAnnotationValue), the
element extractor (SearchEncodedAnnotation), the annotation-record search
(SearchAnnotationSet / IsVisibilityCompatible), the full-set extractor
(ProcessAnnotationSet) and the structural visitor (VisitClassAnnotations /
VisitEncodedValue) are embedded below as executable Lean functions over
byte lists (each byte a `Nat`, reduced mod 256 wherever the C++ code reads
a `uint8_t`).

Unbounded C++ recursion is modelled with an explicit fuel parameter; every
recursive call strictly decreases the fuel, so all definitions are
structurally recursive and compute by `rfl`/`decide`.  Running out of fuel,
or reading past the end of the byte list (undefined behaviour in the C++),
is modelled as a distinct failure outcome; the theorems below are about
runs in which neither occurs.

External collaborators that live outside this file's source (the LEB128
helpers, `DexFile::Read{Signed,Unsigned}{Int,Long}`, the SDK-version check,
the class linker / resolution service, the live object model) are modelled
from the specification, each marked `Modelled from the spec:` in its doc
comment.
-/

namespace DexAnno

/-! ## Value-type tags and visibility constants.

Modelled from the spec: the header byte keeps the kind in its low 5 bits
and `arg` in the high 3 bits; Boolean is 0x1c and overloads `arg` as the
value, Annotation is 0x1e, Array is 0x1f, tags 0x00-0x1d are the used
scalar/reference range.  (The numeric values of the constants are declared
in a header outside `src/`; the exact numbers of the scalar tags are not
observable by any claim, only their distinctness.) -/

def kDexAnnotationByte : Nat := 0x00

def kDexAnnotationShort : Nat := 0x02

def kDexAnnotationChar : Nat := 0x03

def kDexAnnotationInt : Nat := 0x04

def kDexAnnotationLong : Nat := 0x06

def kDexAnnotationFloat : Nat := 0x10

def kDexAnnotationDouble : Nat := 0x11

def kDexAnnotationString : Nat := 0x17

def kDexAnnotationType : Nat := 0x18

def kDexAnnotationField : Nat := 0x19

def kDexAnnotationMethod : Nat := 0x1a

def kDexAnnotationEnum : Nat := 0x1b

def kDexAnnotationBoolean : Nat := 0x1c

def kDexAnnotationNull : Nat := 0x1d

/-- Annotation-kind tag (`kDexAnnotationAnnotation` in the source; the
Lean name is shortened). -/
def kDexAnnotationAnno : Nat := 0x1e

def kDexAnnotationArray : Nat := 0x1f

def kDexVisibilityBuild : Nat := 0x00

def kDexVisibilityRuntime : Nat := 0x01

def kDexVisibilitySystem : Nat := 0x02

/-- The twelve tags handled by the plain-width group of the `switch` in
`SkipAnnotationValue` (cases Byte .. Enum fall through and consume
`value_arg + 1` payload bytes). -/
def isScalarKind (vt : Nat) : Bool :=
  vt == kDexAnnotationByte || vt == kDexAnnotationShort || vt == kDexAnnotationChar ||
  vt == kDexAnnotationInt || vt == kDexAnnotationLong || vt == kDexAnnotationFloat ||
  vt == kDexAnnotationDouble || vt == kDexAnnotationString || vt == kDexAnnotationType ||
  vt == kDexAnnotationMethod || vt == kDexAnnotationField || vt == kDexAnnotationEnum

/-- The seven numeric tags (Byte .. Double) read through
`DexFile::Read{Signed,Unsigned}{Int,Long}` in `ProcessAnnotationValue`. -/
def isNumericKind (vt : Nat) : Bool :=
  vt == kDexAnnotationByte || vt == kDexAnnotationShort || vt == kDexAnnotationChar ||
  vt == kDexAnnotationInt || vt == kDexAnnotationLong || vt == kDexAnnotationFloat ||
  vt == kDexAnnotationDouble

/-- All sixteen defined value-type tags; any other low-5-bit tag value hits
the `default:` case of both `SkipAnnotationValue` and
`ProcessAnnotationValue`. -/
def isDefinedValueTag (vt : Nat) : Bool :=
  isScalarKind vt || vt == kDexAnnotationBoolean || vt == kDexAnnotationNull ||
  vt == kDexAnnotationAnno || vt == kDexAnnotationArray

/-! ## LEB128 and little-endian payload readers. -/

/-- Modelled from the spec: varint indices/sizes are unsigned LEB128
(`DecodeUnsignedLeb128` lives in a base header outside `src/`).  Returns
the decoded value and the remaining bytes; `none` models reading past the
end of the buffer. -/
def DecodeUnsignedLeb128 : List Nat → Option (Nat × List Nat)
  | [] => none
  | b :: r =>
    if b % 256 < 128 then some (b % 256, r)
    else
      match DecodeUnsignedLeb128 r with
      | none => none
      | some (v, r2) => some (b % 256 % 128 + v * 128, r2)

/-- Modelled from the spec: the matching unsigned LEB128 encoder, used only
to build well-formed inputs in theorem statements.  The first argument is
fuel (any value above the number itself is enough). -/
def EncodeUnsignedLeb128Aux : Nat → Nat → List Nat
  | 0, _ => []
  | fuel + 1, n => if n < 128 then [n] else (n % 128 + 128) :: EncodeUnsignedLeb128Aux fuel (n / 128)

/-- Modelled from the spec: unsigned LEB128 encoding of a number. -/
def EncodeUnsignedLeb128 (n : Nat) : List Nat :=
  EncodeUnsignedLeb128Aux (n + 1) n

/-- Value of the first `width` bytes of the list, little endian; `none`
models reading past the end of the buffer. -/
def ReadLittleEndian : List Nat → Nat → Option Nat
  | _, 0 => some 0
  | [], _ + 1 => none
  | b :: r, w + 1 =>
    match ReadLittleEndian r w with
    | none => none
    | some v => some (b % 256 + v * 256)

/-- Sign extension of a `width`-byte little-endian value into a
mathematical integer. -/
def signedOfWidth (width : Nat) (v : Nat) : Int :=
  if v < 2 ^ (8 * width - 1) then (v : Int) else (v : Int) - 2 ^ (8 * width)

/-- Two's-complement wrap of an integer into a signed `w`-bit value
(models C++ `static_cast` to a narrower signed type). -/
def intWrap (w : Nat) (v : Int) : Int :=
  if v % 2 ^ w < 2 ^ (w - 1) then v % 2 ^ w else v % 2 ^ w - 2 ^ w

/-- The unsigned 32-bit pattern of a wrapped integer. -/
def uint32OfInt (v : Int) : Nat :=
  (v % 2 ^ 32).toNat

/-- Modelled from the spec: `DexFile::ReadSignedInt(ptr, zwidth)` reads
`zwidth + 1` little-endian bytes and sign-extends into a 32-bit signed
value (out-of-range `zwidth` is undefined behaviour in the C++, modelled
as `none`). -/
def ReadSignedInt (bytes : List Nat) (zwidth : Nat) : Option Int :=
  if zwidth ≤ 3 then (ReadLittleEndian bytes (zwidth + 1)).map (signedOfWidth (zwidth + 1))
  else none

/-- Modelled from the spec: `DexFile::ReadUnsignedInt(ptr, zwidth, fill_on_right)`
reads `zwidth + 1` little-endian bytes zero-extended; with `fill_on_right`
the value is left-justified into the full 32-bit width (floats store only
their most significant bytes). -/
def ReadUnsignedInt (bytes : List Nat) (zwidth : Nat) (fill_on_right : Bool) : Option Nat :=
  if zwidth ≤ 3 then
    (ReadLittleEndian bytes (zwidth + 1)).map
      (fun v => if fill_on_right then v * 2 ^ (8 * (3 - zwidth)) else v)
  else none

/-- Modelled from the spec: 64-bit variant of `ReadSignedInt`. -/
def ReadSignedLong (bytes : List Nat) (zwidth : Nat) : Option Int :=
  if zwidth ≤ 7 then (ReadLittleEndian bytes (zwidth + 1)).map (signedOfWidth (zwidth + 1))
  else none

/-- Modelled from the spec: 64-bit variant of `ReadUnsignedInt`. -/
def ReadUnsignedLong (bytes : List Nat) (zwidth : Nat) (fill_on_right : Bool) : Option Nat :=
  if zwidth ≤ 7 then
    (ReadLittleEndian bytes (zwidth + 1)).map
      (fun v => if fill_on_right then v * 2 ^ (8 * (7 - zwidth)) else v)
  else none

/-! ## The skip mode of the codec (`SkipAnnotationValue`). -/

/-- Requests of the skip interpreter: one encoded value, a counted run of
encoded values (the body of an Array), or a counted run of
(name-index, value) pairs (the elements of an encoded Annotation). -/
inductive SkipReq where
  | one (bytes : List Nat)
  | many (count : Nat) (bytes : List Nat)
  | pairs (count : Nat) (bytes : List Nat)

/-- Fuel-indexed interpreter for `SkipAnnotationValue` and its two inner
loops (the Array loop at lines 230-240 and the Annotation loop at lines
241-253 of the source).  `none` models either the `LOG(FATAL)` abort on an
unknown tag, an out-of-bounds read, or fuel exhaustion. -/
def skipExec : Nat → SkipReq → Option (List Nat)
  | 0, _ => none
  | _ + 1, .one [] => none
  | fuel + 1, .one (b :: annot) =>
    let value_type := b % 256 % 32
    let value_arg := b % 256 / 32
    if isScalarKind value_type then
      some (annot.drop (value_arg + 1))
    else if value_type = kDexAnnotationArray then
      match DecodeUnsignedLeb128 annot with
      | none => none
      | some (size, r) => skipExec fuel (.many size r)
    else if value_type = kDexAnnotationAnno then
      match DecodeUnsignedLeb128 annot with
      | none => none
      | some (_, r1) =>
        match DecodeUnsignedLeb128 r1 with
        | none => none
        | some (size, r2) => skipExec fuel (.pairs size r2)
    else if value_type = kDexAnnotationBoolean ∨ value_type = kDexAnnotationNull then
      some annot
    else none
  | _ + 1, .many 0 bytes => some bytes
  | fuel + 1, .many (c + 1) bytes =>
    match skipExec fuel (.one bytes) with
    | none => none
    | some r => skipExec fuel (.many c r)
  | _ + 1, .pairs 0 bytes => some bytes
  | fuel + 1, .pairs (c + 1) bytes =>
    match DecodeUnsignedLeb128 bytes with
    | none => none
    | some (_, r0) =>
      match skipExec fuel (.one r0) with
      | none => none
      | some r => skipExec fuel (.pairs c r)

/-- `SkipAnnotationValue` (source lines 208-266): advance the cursor past
exactly one encoded value without materializing it. -/
def SkipAnnotationValue (fuel : Nat) (bytes : List Nat) : Option (List Nat) :=
  skipExec fuel (.one bytes)

/-- The Array-body loop of `SkipAnnotationValue`: skip `count` encoded
values in sequence. -/
def SkipValues (fuel count : Nat) (bytes : List Nat) : Option (List Nat) :=
  skipExec fuel (.many count bytes)

/-- The Annotation-body loop of `SkipAnnotationValue`: skip `count`
(name-index, value) pairs in sequence. -/
def SkipNamePairs (fuel count : Nat) (bytes : List Nat) : Option (List Nat) :=
  skipExec fuel (.pairs count bytes)

/-! ## The object model and the resolution service.

Modelled from the spec: the live object model (`mirror::*`), the boxing
helper `BoxPrimitive`, and the class-linker resolution service are external
collaborators outside `src/`; they are represented abstractly below. -/

/-- The `Primitive::Type` enumeration used for boxing decisions. -/
inductive PrimitiveType where
  | kPrimVoid | kPrimByte | kPrimShort | kPrimChar | kPrimInt
  | kPrimLong | kPrimFloat | kPrimDouble | kPrimBoolean
deriving DecidableEq, Repr

/-- Modelled from the spec: a `mirror::Class`, as far as the decoder
observes one — a primitive class, some non-primitive (reference) class
identified by an opaque index, or an array class with a component type. -/
inductive MirrorCls where
  | primByte | primShort | primChar | primInt
  | primLong | primFloat | primDouble | primBoolean
  | refCls (idx : Nat)
  | arrayOf (c : MirrorCls)
deriving DecidableEq, Repr

/-- `mirror::Class::IsPrimitive`. -/
def MirrorCls.IsPrimitive : MirrorCls → Bool
  | .primByte | .primShort | .primChar | .primInt
  | .primLong | .primFloat | .primDouble | .primBoolean => true
  | _ => false

/-- `mirror::Class::GetComponentType` (`none` on a non-array class, where
the C++ returns null and the decoder's subsequent use is undefined). -/
def MirrorCls.GetComponentType : MirrorCls → Option MirrorCls
  | .arrayOf c => some c
  | _ => none

mutual

/-- Modelled from the spec: a live reference produced by materialization —
a resolved string/class/method/field, the `TypeNotPresentException`
placeholder, a boxed primitive, a filled array, or a constructed
annotation object. -/
inductive Obj where
  | strObj (idx : Nat)
  | clsObj (idx : Nat)
  | typeNotPresent (descriptor : String)
  | methodObj (idx : Nat) (isCtor : Bool)
  | fieldObj (idx : Nat)
  | enumObj (idx : Nat)
  | boxedObj (t : PrimitiveType) (v : JValue)
  | arrayObj (elems : List ArrSlot)
  | annoObj (typeIdx : Nat) (members : List (String × Option Obj))

/-- The `JValue` union as written by the decoder's `Set*` calls: one
constructor per setter, plus `jUnset` for the never-written state the C++
leaves uninitialized. -/
inductive JValue where
  | jB (v : Int)
  | jS (v : Int)
  | jC (v : Nat)
  | jI (v : Int)
  | jJ (v : Int)
  | jZ (v : Bool)
  | jL (o : Option Obj)
  | jUnset

/-- One slot of a materialized array: a typed primitive store
(`As*Array()->SetWithoutChecks`) or an object-reference store. -/
inductive ArrSlot where
  | sB (v : Int)
  | sS (v : Int)
  | sC (v : Nat)
  | sI (v : Int)
  | sJ (v : Int)
  | sF (bits : Nat)
  | sD (bits : Nat)
  | sZ (v : Bool)
  | sL (o : Option Obj)

end

/-- `JValue::GetB` (reads of a differently-written union member are
undefined in C++ and modelled by a default). -/
def JValue.GetB : JValue → Int
  | .jB v => v
  | _ => 0

/-- `JValue::GetS`. -/
def JValue.GetS : JValue → Int
  | .jS v => v
  | _ => 0

/-- `JValue::GetC`. -/
def JValue.GetC : JValue → Nat
  | .jC v => v
  | _ => 0

/-- `JValue::GetI`. -/
def JValue.GetI : JValue → Int
  | .jI v => v
  | _ => 0

/-- `JValue::GetJ`. -/
def JValue.GetJ : JValue → Int
  | .jJ v => v
  | _ => 0

/-- `JValue::GetZ`. -/
def JValue.GetZ : JValue → Bool
  | .jZ v => v
  | _ => false

/-- `JValue::GetL`. -/
def JValue.GetL : JValue → Option Obj
  | .jL o => o
  | _ => none

/-- `JValue::GetF`, seen as the 32-bit pattern of the stored value (the
decoder writes floats through `SetI` and reads them back through the
union). -/
def JValue.GetF : JValue → Nat
  | .jI v => uint32OfInt v
  | .jJ v => (v % 2 ^ 64).toNat % 2 ^ 32
  | _ => 0

/-- `JValue::GetD`, seen as the 64-bit pattern of the stored value. -/
def JValue.GetD : JValue → Nat
  | .jJ v => (v % 2 ^ 64).toNat
  | .jI v => uint32OfInt v
  | _ => 0

/-- `DexFile::AnnotationValue` (source lines 57-60). -/
structure AnnotationValue where
  value_ : JValue
  type_ : Nat

/-- `DexFile::AnnotationResultStyle`. -/
inductive AnnotationResultStyle where
  | kAllRaw | kAllObjects | kPrimitivesOrObjects
deriving DecidableEq, Repr

/-- Modelled from the spec: the external symbol-resolution service and
string/descriptor tables (class linker + dex-file string section), plus
the annotation-construction callback (`AnnotationFactory.createAnnotation`)
and the member-method lookup used by `CreateAnnotationMember`.  Each
resolver returns `none` exactly when the C++ counterpart returns null with
a pending exception. -/
structure ResolutionService where
  ResolveString : Nat → Option Obj
  ResolveType : Nat → Option Obj
  ResolveMethodId : Nat → Option (Nat × Bool)
  ResolveFieldJLS : Nat → Option Nat
  ResolveEnumField : Nat → Option Obj
  GetTypeDescriptor : Nat → String
  GetStringData : Nat → String
  FindMemberMethodReturnType : Nat → String → Option MirrorCls
  CreateAnnotationObj : Nat → List (String × Option Obj) → Option Obj

/-- Outcome of `ProcessAnnotationValue`: success with the filled
`AnnotationValue` and the advanced cursor, a `false` return carrying the
`type_` already written to the out-parameter and the thread's
exception-pending state, or an out-of-bounds / fuel-exhausted abort. -/
inductive PAVResult where
  | ok (av : AnnotationValue) (rest : List Nat)
  | err (ty : Nat) (exn : Bool)
  | oob

/-- Requests of the decode interpreter: one encoded value
(`ProcessAnnotationValue`), the element loop of an Array body, an encoded
annotation body (`ProcessEncodedAnnotation`, cursor already past the
header byte), its member loop, and one member
(`CreateAnnotationMember`). -/
inductive MatReq where
  | val (bytes : List Nat) (array_class : Option MirrorCls) (style : AnnotationResultStyle)
  | elems (component : MirrorCls) (count : Nat) (bytes : List Nat)
  | body (bytes : List Nat)
  | members (annoType : Nat) (count : Nat) (bytes : List Nat)
  | member (annoType : Nat) (bytes : List Nat)

/-- Results of the decode interpreter, one constructor per request kind.
The `Bool` components model the thread's exception-pending flag on
return. -/
inductive MatRes where
  | rVal (r : PAVResult)
  | rElems (r : Option (List ArrSlot × List Nat)) (exn : Bool)
  | rBody (r : Option (Obj × List Nat)) (exn : Bool)
  | rMembers (r : Option (List (String × Option Obj) × List Nat)) (exn : Bool)
  | rMember (r : Option ((String × Option Obj) × List Nat)) (exn : Bool)

/-- The numeric `Read*`-and-`Set*` step of `ProcessAnnotationValue`
(source lines 432-462): the `JValue` written and the `Primitive::Type`
selected, per numeric tag. -/
def readScalar (vt : Nat) (annot : List Nat) (va : Nat) : Option (JValue × PrimitiveType) :=
  if vt = kDexAnnotationByte then
    (ReadSignedInt annot va).map (fun v => (.jB (intWrap 8 v), .kPrimByte))
  else if vt = kDexAnnotationShort then
    (ReadSignedInt annot va).map (fun v => (.jS (intWrap 16 v), .kPrimShort))
  else if vt = kDexAnnotationChar then
    (ReadUnsignedInt annot va false).map (fun v => (.jC (v % 2 ^ 16), .kPrimChar))
  else if vt = kDexAnnotationInt then
    (ReadSignedInt annot va).map (fun v => (.jI v, .kPrimInt))
  else if vt = kDexAnnotationLong then
    (ReadSignedLong annot va).map (fun v => (.jJ v, .kPrimLong))
  else if vt = kDexAnnotationFloat then
    (ReadUnsignedInt annot va true).map (fun v => (.jI (intWrap 32 v), .kPrimFloat))
  else if vt = kDexAnnotationDouble then
    (ReadUnsignedLong annot va true).map (fun v => (.jJ (intWrap 64 v), .kPrimDouble))
  else none

/-- The common tail of `ProcessAnnotationValue` for primitive kinds
(source lines 684-691): under `kAllObjects` the primitive is boxed and
stored through `SetL`, otherwise the `JValue` stays as written. -/
def finishScalar (style : AnnotationResultStyle) (prim : PrimitiveType) (jv : JValue)
    (vt : Nat) (rest : List Nat) : PAVResult :=
  if style = .kAllObjects then .ok ⟨.jL (some (.boxedObj prim jv)), vt⟩ rest
  else .ok ⟨jv, vt⟩ rest

/-- The shared shape of the String/Method/Field/Enum reference cases of
`ProcessAnnotationValue`: raw style stores the index through `SetI`,
otherwise the index is resolved and a failed resolution is a hard failure
with the exception left pending. -/
def refCase (style : AnnotationResultStyle) (resolveObj : Nat → Option Obj)
    (vt idx : Nat) (rest : List Nat) : PAVResult :=
  if style = .kAllRaw then .ok ⟨.jI (intWrap 32 idx), vt⟩ rest
  else
    match resolveObj idx with
    | none => .err vt true
    | some o => .ok ⟨.jL (some o), vt⟩ rest

/-- The element-store step of the Array case (source lines 607-649):
non-primitive components store the object reference, primitive components
store through the typed array matching the *element's* decoded tag;
any other tag hits the `LOG(FATAL)` / `return false` arm (`none`). -/
def slotOf (comp : MirrorCls) (avv : AnnotationValue) : Option ArrSlot :=
  if comp.IsPrimitive = false then some (.sL avv.value_.GetL)
  else if avv.type_ = kDexAnnotationByte then some (.sB avv.value_.GetB)
  else if avv.type_ = kDexAnnotationShort then some (.sS avv.value_.GetS)
  else if avv.type_ = kDexAnnotationChar then some (.sC avv.value_.GetC)
  else if avv.type_ = kDexAnnotationInt then some (.sI avv.value_.GetI)
  else if avv.type_ = kDexAnnotationLong then some (.sJ avv.value_.GetJ)
  else if avv.type_ = kDexAnnotationFloat then some (.sF avv.value_.GetF)
  else if avv.type_ = kDexAnnotationDouble then some (.sD avv.value_.GetD)
  else if avv.type_ = kDexAnnotationBoolean then some (.sZ avv.value_.GetZ)
  else none

/-- Fuel-indexed interpreter for the decode mode of the codec:
`ProcessAnnotationValue` (source lines 412-694), the Array element loop
(lines 599-650), `ProcessEncodedAnnotation` (lines 356-410), its member
loop (lines 392-398) and `CreateAnnotationMember` (lines 696-756).
Allocation failures of the external allocator are not modelled (the
allocator is total); running out of fuel or past the end of the buffer is
a distinct abort. -/
def matExec (rs : ResolutionService) : Nat → MatReq → MatRes
  | 0, .val _ _ _ => .rVal .oob
  | 0, .elems _ _ _ => .rElems none false
  | 0, .body _ => .rBody none false
  | 0, .members _ _ _ => .rMembers none false
  | 0, .member _ _ => .rMember none false
  | _ + 1, .val [] _ _ => .rVal .oob
  | fuel + 1, .val (b :: annot) array_class result_style =>
    let vt := b % 256 % 32
    let va := b % 256 / 32
    if isNumericKind vt then
      match readScalar vt annot va with
      | none => .rVal .oob
      | some (jv, prim) => .rVal (finishScalar result_style prim jv vt (annot.drop (va + 1)))
    else if vt = kDexAnnotationBoolean then
      .rVal (finishScalar result_style .kPrimBoolean (.jZ (va != 0)) vt annot)
    else if vt = kDexAnnotationString then
      match ReadUnsignedInt annot va false with
      | none => .rVal .oob
      | some idx => .rVal (refCase result_style rs.ResolveString vt idx (annot.drop (va + 1)))
    else if vt = kDexAnnotationType then
      match ReadUnsignedInt annot va false with
      | none => .rVal .oob
      | some idx =>
        if result_style = .kAllRaw then
          .rVal (.ok ⟨.jI (intWrap 32 idx), vt⟩ (annot.drop (va + 1)))
        else
          match rs.ResolveType idx with
          | some o => .rVal (.ok ⟨.jL (some o), vt⟩ (annot.drop (va + 1)))
          | none =>
            if result_style = .kAllObjects then
              .rVal (.ok ⟨.jL (some (.typeNotPresent (rs.GetTypeDescriptor idx))), vt⟩
                       (annot.drop (va + 1)))
            else .rVal (.err vt true)
    else if vt = kDexAnnotationMethod then
      match ReadUnsignedInt annot va false with
      | none => .rVal .oob
      | some idx =>
        .rVal (refCase result_style
          (fun i => (rs.ResolveMethodId i).map (fun mc => .methodObj mc.1 mc.2))
          vt idx (annot.drop (va + 1)))
    else if vt = kDexAnnotationField then
      match ReadUnsignedInt annot va false with
      | none => .rVal .oob
      | some idx =>
        .rVal (refCase result_style (fun i => (rs.ResolveFieldJLS i).map .fieldObj)
          vt idx (annot.drop (va + 1)))
    else if vt = kDexAnnotationEnum then
      match ReadUnsignedInt annot va false with
      | none => .rVal .oob
      | some idx =>
        .rVal (refCase result_style rs.ResolveEnumField vt idx (annot.drop (va + 1)))
    else if vt = kDexAnnotationArray then
      if result_style = .kAllRaw ∨ array_class = none then .rVal (.err vt false)
      else
        match array_class with
        | none => .rVal (.err vt false)
        | some acls =>
          match acls.GetComponentType with
          | none => .rVal .oob
          | some comp =>
            match DecodeUnsignedLeb128 annot with
            | none => .rVal .oob
            | some (size, r) =>
              match matExec rs fuel (.elems comp size r) with
              | .rElems none exn => .rVal (.err vt exn)
              | .rElems (some (slots, rest)) _ =>
                .rVal (.ok ⟨.jL (some (.arrayObj slots)), vt⟩ rest)
              | _ => .rVal .oob
    else if vt = kDexAnnotationAnno then
      if result_style = .kAllRaw then .rVal (.err vt false)
      else
        match matExec rs fuel (.body annot) with
        | .rBody none exn => .rVal (.err vt exn)
        | .rBody (some (o, rest)) _ => .rVal (.ok ⟨.jL (some o), vt⟩ rest)
        | _ => .rVal .oob
    else if vt = kDexAnnotationNull then
      if result_style = .kAllRaw then .rVal (.ok ⟨.jI 0, vt⟩ annot)
      else .rVal (.ok ⟨.jL none, vt⟩ annot)
    else .rVal (.err vt false)
  | _ + 1, .elems _ 0 bytes => .rElems (some ([], bytes)) false
  | fuel + 1, .elems comp (c + 1) bytes =>
    match matExec rs fuel (.val bytes (some comp) .kPrimitivesOrObjects) with
    | .rVal (.ok avv r1) =>
      match slotOf comp avv with
      | none => .rElems none false
      | some slot =>
        match matExec rs fuel (.elems comp c r1) with
        | .rElems (some (slots, rest)) e => .rElems (some (slot :: slots, rest)) e
        | .rElems none e => .rElems none e
        | _ => .rElems none false
    | .rVal (.err _ exn) => .rElems none exn
    | _ => .rElems none false
  | fuel + 1, .body bytes =>
    match DecodeUnsignedLeb128 bytes with
    | none => .rBody none false
    | some (type_index, r1) =>
      match DecodeUnsignedLeb128 r1 with
      | none => .rBody none false
      | some (size, r2) =>
        match rs.ResolveType type_index with
        | none => .rBody none false
        | some _ =>
          match matExec rs fuel (.members type_index size r2) with
          | .rMembers none exn => .rBody none exn
          | .rMembers (some (mems, rest)) _ =>
            match rs.CreateAnnotationObj type_index mems with
            | none => .rBody none true
            | some o => .rBody (some (o, rest)) false
          | _ => .rBody none false
  | _ + 1, .members _ 0 bytes => .rMembers (some ([], bytes)) false
  | fuel + 1, .members t (c + 1) bytes =>
    match matExec rs fuel (.member t bytes) with
    | .rMember (some (m, r1)) _ =>
      match matExec rs fuel (.members t c r1) with
      | .rMembers (some (ms, rest)) e => .rMembers (some (m :: ms, rest)) e
      | .rMembers none e => .rMembers none e
      | _ => .rMembers none false
    | .rMember none exn => .rMembers none exn
    | _ => .rMembers none false
  | fuel + 1, .member t bytes =>
    match DecodeUnsignedLeb128 bytes with
    | none => .rMember none false
    | some (element_name_index, r1) =>
      match rs.FindMemberMethodReturnType t (rs.GetStringData element_name_index) with
      | none => .rMember none false
      | some method_return =>
        match matExec rs fuel (.val r1 (some method_return) .kAllObjects) with
        | .rVal (.ok avv rest) =>
          .rMember (some ((rs.GetStringData element_name_index, avv.value_.GetL), rest)) false
        | .rVal (.err _ exn) => .rMember none exn
        | _ => .rMember none false

/-- `ProcessAnnotationValue` (source lines 412-694): decode one encoded
value at the cursor under the given expected array class and result
style. -/
def ProcessAnnotationValue (rs : ResolutionService) (fuel : Nat) (bytes : List Nat)
    (array_class : Option MirrorCls) (result_style : AnnotationResultStyle) : PAVResult :=
  match matExec rs fuel (.val bytes array_class result_style) with
  | .rVal r => r
  | _ => .oob

/-- The Array element loop of `ProcessAnnotationValue` (source lines
599-650): decode `count` elements into slots. -/
def ProcessArrayElements (rs : ResolutionService) (fuel : Nat) (comp : MirrorCls)
    (count : Nat) (bytes : List Nat) : Option (List ArrSlot × List Nat) × Bool :=
  match matExec rs fuel (.elems comp count bytes) with
  | .rElems r e => (r, e)
  | _ => (none, false)

/-- `ProcessEncodedAnnotation` (source lines 356-410; the Lean name is
shortened): construct an annotation object from an encoded annotation
body.  Second component is the exception-pending flag on return. -/
def ProcessEncodedAnno (rs : ResolutionService) (fuel : Nat) (bytes : List Nat) :
    Option (Obj × List Nat) × Bool :=
  match matExec rs fuel (.body bytes) with
  | .rBody r e => (r, e)
  | _ => (none, false)

/-- `CreateAnnotationMember` (source lines 696-756): decode one
(name, value) member of an encoded annotation. -/
def CreateAnnotationMember (rs : ResolutionService) (fuel : Nat) (annoType : Nat)
    (bytes : List Nat) : Option ((String × Option Obj) × List Nat) × Bool :=
  match matExec rs fuel (.member annoType bytes) with
  | .rMember r e => (r, e)
  | _ => (none, false)

/-! ## Element extractor, annotation-record search, full-set extraction. -/

/-- The scan loop of `SearchEncodedAnnotation` (source lines 275-284):
for each remaining element, decode the name index, compare the
dereferenced string, return the cursor at the value on a match, skip the
value otherwise.  `none` is both not-found (count exhausted, line 285)
and the unrecoverable abort inside `SkipAnnotationValue`. -/
def SearchLoop (rs : ResolutionService) (fuel : Nat) (name : String) :
    Nat → List Nat → Option (List Nat)
  | 0, _ => none
  | c + 1, bytes =>
    match DecodeUnsignedLeb128 bytes with
    | none => none
    | some (element_name_index, r) =>
      if rs.GetStringData element_name_index = name then some r
      else
        match SkipAnnotationValue fuel r with
        | none => none
        | some r2 => SearchLoop rs fuel name c r2

/-- `SearchEncodedAnnotation` (source lines 268-286; the Lean name is
shortened): find the byte offset of the value of the named element inside
an encoded annotation body. -/
def SearchEncodedAnno (rs : ResolutionService) (fuel : Nat) (annot : List Nat)
    (name : String) : Option (List Nat) :=
  match DecodeUnsignedLeb128 annot with
  | none => none
  | some (_, r1) =>
    match DecodeUnsignedLeb128 r1 with
    | none => none
    | some (size, r2) => SearchLoop rs fuel name size r2

/-- Modelled from the spec: `SdkVersion::kM`, the externally supplied
legacy-compatibility threshold (the exact number is irrelevant to every
claim; only the predicate below is observable). -/
def sdkVersionM : Nat := 23

/-- Modelled from the spec: `IsSdkVersionSetAndAtMost(v, threshold)` —
the externally supplied target SDK version is set (nonzero) and at most
the threshold. -/
def IsSdkVersionSetAndAtMost (version threshold : Nat) : Bool :=
  version != 0 && decide (version ≤ threshold)

/-- `IsVisibilityCompatible` (source lines 141-148): requesting Runtime
visibility also accepts Build when the legacy-compatibility mode is
active; every other request is exact equality. -/
def IsVisibilityCompatible (targetSdk : Nat) (actual expected : Nat) : Bool :=
  if expected = kDexVisibilityRuntime then
    if IsSdkVersionSetAndAtMost targetSdk sdkVersionM then
      actual == kDexVisibilityRuntime || actual == kDexVisibilityBuild
    else actual == expected
  else actual == expected

/-- One annotation record of a member's annotation set: the `visibility_`
byte and the encoded bytes starting at the leading type index
(`dex::AnnotationItem`). -/
structure AnnotationItem where
  visibility_ : Nat
  annotation_ : List Nat
deriving DecidableEq, Repr

/-- `SearchAnnotationSet` (source lines 182-202): first record, in stored
order, whose visibility is compatible with the request and whose decoded
type descriptor equals the requested descriptor. -/
def SearchAnnotationSet (rs : ResolutionService) (targetSdk : Nat) :
    List AnnotationItem → String → Nat → Option AnnotationItem
  | [], _, _ => none
  | item :: rest, descriptor, visibility =>
    if IsVisibilityCompatible targetSdk item.visibility_ visibility then
      match DecodeUnsignedLeb128 item.annotation_ with
      | none => none
      | some (type_index, _) =>
        if rs.GetTypeDescriptor type_index = descriptor then some item
        else SearchAnnotationSet rs targetSdk rest descriptor visibility
    else SearchAnnotationSet rs targetSdk rest descriptor visibility

/-- The record loop of `ProcessAnnotationSet` (source lines 942-957):
note the strict `visibility_ != visibility` filter (the source comments
that `IsVisibilityCompatible` is deliberately not used here).  A record
whose materialization returns null with a pending exception aborts the
whole call (`none`); a null without a pending exception is skipped. -/
def ProcessAnnotationSetLoop (rs : ResolutionService) (fuel : Nat) (visibility : Nat) :
    List AnnotationItem → Option (List Obj)
  | [] => some []
  | item :: rest =>
    if item.visibility_ ≠ visibility then ProcessAnnotationSetLoop rs fuel visibility rest
    else
      match ProcessEncodedAnno rs fuel item.annotation_ with
      | (some (o, _), _) => (ProcessAnnotationSetLoop rs fuel visibility rest).map (o :: ·)
      | (none, true) => none
      | (none, false) => ProcessAnnotationSetLoop rs fuel visibility rest

/-- `ProcessAnnotationSet` (source lines 920-975): materialize every
record of the set carrying exactly the requested visibility (a missing
set yields the empty result). -/
def ProcessAnnotationSet (rs : ResolutionService) (fuel : Nat)
    (annotation_set : Option (List AnnotationItem)) (visibility : Nat) : Option (List Obj) :=
  match annotation_set with
  | none => some []
  | some items => ProcessAnnotationSetLoop rs fuel visibility items

/-! ## The structural visitor. -/

/-- `VisitorStatus` (declared in the header next to the source). -/
inductive VisitorStatus where
  | kVisitBreak | kVisitNext | kVisitInner
deriving DecidableEq, Repr

/-- The caller-supplied callback object (`AnnotationVisitor`): one
callback per annotation record (`VisitAnnotation` in the source),
per depth-0 element, and per array slot at depth > 0. -/
structure AnnotationVisitor where
  visitAnnotationRecord : String → Nat → VisitorStatus
  visitAnnotationElement : String → Nat → JValue → VisitorStatus
  visitArrayElement : Nat → Nat → Nat → JValue → VisitorStatus

/-- One observed callback invocation, with the status the callback
returned: a record-level, element-level, or array-slot invocation. -/
inductive VisitEvent where
  | recEvent (descriptor : String) (visibility : Nat) (st : VisitorStatus)
  | elemEvent (element_name : String) (ty : Nat) (v : JValue) (st : VisitorStatus)
  | arrEvent (depth index : Nat) (ty : Nat) (v : JValue) (st : VisitorStatus)

/-- Is the event a record-level callback that returned `kVisitBreak`? -/
def isRecordBreak : VisitEvent → Bool
  | .recEvent _ _ .kVisitBreak => true
  | _ => false

/-- Is the event a record-level callback at all? -/
def isRecEvent : VisitEvent → Bool
  | .recEvent _ _ _ => true
  | _ => false

/-- `VisitElement` (source lines 1898-1912): dispatch to the depth-0
element callback or the array-slot callback, recording the invocation. -/
def VisitElement (av : AnnotationVisitor) (element_name : String)
    (depth element_index : Nat) (annotation_value : AnnotationValue) :
    VisitorStatus × VisitEvent :=
  if depth = 0 then
    let st := av.visitAnnotationElement element_name annotation_value.type_ annotation_value.value_
    (st, .elemEvent element_name annotation_value.type_ annotation_value.value_ st)
  else
    let st := av.visitArrayElement (depth - 1) element_index annotation_value.type_
                annotation_value.value_
    (st, .arrEvent (depth - 1) element_index annotation_value.type_ annotation_value.value_ st)

/-- The view `VisitEncodedValue` takes of a `ProcessAnnotationValue`
result: whether the value was consumed, the (possibly partially written)
out-parameter, and the cursor after the call (unchanged when the call
returned false). -/
def pavView : PAVResult → List Nat → Option (Bool × AnnotationValue × List Nat)
  | .ok avv rest, _ => some (true, avv, rest)
  | .err ty _, bytes => some (false, ⟨.jUnset, ty⟩, bytes)
  | .oob, _ => none

/-- Requests of the visitor interpreter: one encoded value
(`VisitEncodedValue`) or the array-slot loop (source lines 1942-1949),
which carries the remaining count, the running slot index and the status
of the previously visited slot. -/
inductive VisReq where
  | one (bytes : List Nat) (element_name : String) (depth : Nat) (element_index : Nat)
  | arr (remaining : Nat) (bytes : List Nat) (element_name : String) (next_depth : Nat)
        (index : Nat) (st : VisitorStatus)

/-- Fuel-indexed interpreter for `VisitEncodedValue` (source lines
1914-1982).  Returns the status of the visited element's own callback,
the cursor past the whole value, and the callback invocations in order;
`none` models fuel exhaustion or an abort inside the codec. -/
def visExec (rs : ResolutionService) (av : AnnotationVisitor) :
    Nat → VisReq → Option (VisitorStatus × List Nat × List VisitEvent)
  | 0, _ => none
  | fuel + 1, .one bytes element_name depth element_index =>
    match pavView (ProcessAnnotationValue rs (fuel + 1) bytes none .kAllRaw) bytes with
    | none => none
    | some (is_consumed, annotation_value, after) =>
      let sev := VisitElement av element_name depth element_index annotation_value
      if annotation_value.type_ = kDexAnnotationArray then
        match bytes with
        | [] => none
        | _ :: r0 =>
          match DecodeUnsignedLeb128 r0 with
          | none => none
          | some (array_size, r1) =>
            let element_status :=
              if sev.1 = VisitorStatus.kVisitInner then VisitorStatus.kVisitNext
              else VisitorStatus.kVisitBreak
            match visExec rs av fuel (.arr array_size r1 element_name (depth + 1) 0
                                        element_status) with
            | none => none
            | some (_, r2, evs) => some (sev.1, r2, sev.2 :: evs)
      else if annotation_value.type_ = kDexAnnotationAnno then
        match bytes with
        | [] => none
        | _ :: r0 =>
          match DecodeUnsignedLeb128 r0 with
          | none => none
          | some (_, r1) =>
            match DecodeUnsignedLeb128 r1 with
            | none => none
            | some (size, r2) =>
              match SkipNamePairs (fuel + 1) size r2 with
              | none => none
              | some r3 => some (sev.1, r3, [sev.2])
      else
        if is_consumed then some (sev.1, after, [sev.2])
        else
          match SkipAnnotationValue (fuel + 1) bytes with
          | none => none
          | some r2 => some (sev.1, r2, [sev.2])
  | _ + 1, .arr 0 bytes _ _ _ st => some (st, bytes, [])
  | fuel + 1, .arr (rem + 1) bytes element_name next_depth index st =>
    if st = VisitorStatus.kVisitBreak then
      match SkipValues (fuel + 1) (rem + 1) bytes with
      | none => none
      | some r => some (st, r, [])
    else
      match visExec rs av fuel (.one bytes element_name next_depth index) with
      | none => none
      | some (st2, r1, evs1) =>
        match visExec rs av fuel (.arr rem r1 element_name next_depth (index + 1) st2) with
        | none => none
        | some (stF, r2, evs2) => some (stF, r2, evs1 ++ evs2)

/-- `VisitEncodedValue` (source lines 1914-1982). -/
def VisitEncodedValue (rs : ResolutionService) (av : AnnotationVisitor) (fuel : Nat)
    (bytes : List Nat) (element_name : String) (depth element_index : Nat) :
    Option (VisitorStatus × List Nat × List VisitEvent) :=
  visExec rs av fuel (.one bytes element_name depth element_index)

/-- The element loop of `VisitClassAnnotations` (source lines 2009-2021):
visit up to `count` named elements; a `kVisitBreak` from an element ends
this record's element walk (only). -/
def VisitElementsLoop (rs : ResolutionService) (av : AnnotationVisitor) (fuel : Nat) :
    Nat → List Nat → Option (List VisitEvent)
  | 0, _ => some []
  | size + 1, bytes =>
    match DecodeUnsignedLeb128 bytes with
    | none => none
    | some (element_name_index, r1) =>
      match visExec rs av fuel (.one r1 (rs.GetStringData element_name_index) 0 0) with
      | none => none
      | some (status, r2, evs) =>
        if status = VisitorStatus.kVisitBreak then some evs
        else (VisitElementsLoop rs av fuel size r2).map (evs ++ ·)

/-- The record loop of `VisitClassAnnotations` (source lines 1992-2022):
a `kVisitBreak` from the record callback returns from the whole
traversal; `kVisitNext` moves to the next record; `kVisitInner` walks the
record's elements and then *continues with the next record* even when the
element walk stopped on a `kVisitBreak`. -/
def VisitRecordsLoop (rs : ResolutionService) (av : AnnotationVisitor) (fuel : Nat) :
    List AnnotationItem → Option (List VisitEvent)
  | [] => some []
  | item :: rest =>
    match DecodeUnsignedLeb128 item.annotation_ with
    | none => none
    | some (type_index, r1) =>
      let descriptor := rs.GetTypeDescriptor type_index
      let status := av.visitAnnotationRecord descriptor item.visibility_
      let ev := VisitEvent.recEvent descriptor item.visibility_ status
      match status with
      | .kVisitBreak => some [ev]
      | .kVisitNext => (VisitRecordsLoop rs av fuel rest).map (ev :: ·)
      | .kVisitInner =>
        match DecodeUnsignedLeb128 r1 with
        | none => none
        | some (size, r2) =>
          match VisitElementsLoop rs av fuel size r2 with
          | none => none
          | some evs => (VisitRecordsLoop rs av fuel rest).map (fun t => ev :: (evs ++ t))

/-- `VisitClassAnnotations` (source lines 1984-2023), with the class's
annotation set (located by the external member index) passed in
directly. -/
def VisitClassAnnotations (rs : ResolutionService) (av : AnnotationVisitor) (fuel : Nat)
    (annotation_set : List AnnotationItem) : Option (List VisitEvent) :=
  VisitRecordsLoop rs av fuel annotation_set

/-! ## Statement-side helpers and concrete inputs for the theorems. -/

/-- Encoding of the element region of an annotation body from an abstract
element list: for each element, the LEB128 name index followed by the
element's already-encoded value bytes; `tail` is whatever follows the
body. -/
def EncodeElems : List (Nat × List Nat) → List Nat → List Nat
  | [], tail => tail
  | e :: es, tail => EncodeUnsignedLeb128 e.1 ++ (e.2 ++ EncodeElems es tail)

/-- The specified behaviour of the element scan, stated over the abstract
element list: the cursor at the value of the first element (in stored
order) whose dereferenced name equals the requested name, or `none`. -/
def FindElemSpec (rs : ResolutionService) (name : String) :
    List (Nat × List Nat) → List Nat → Option (List Nat)
  | [], _ => none
  | e :: es, tail =>
    if rs.GetStringData e.1 = name then some (e.2 ++ EncodeElems es tail)
    else FindElemSpec rs name es tail

/-- The 8-bit two's-complement pattern of an array slot written through
`AsByteArray()->SetWithoutChecks` — the raw stored bits of a byte
element. -/
def slotBits8 : ArrSlot → Nat
  | .sB v => (v % 2 ^ 8).toNat
  | _ => 0

/-- Encoding of a run of Byte-kind elements (header byte `0x00`, one
payload byte each), used to build Array bodies in theorem statements. -/
def encodeByteElems : List Nat → List Nat
  | [] => []
  | v :: vs => kDexAnnotationByte :: v :: encodeByteElems vs

/-- A concrete resolution service in which every index resolves. -/
def demoRs : ResolutionService where
  ResolveString := fun n => some (.strObj n)
  ResolveType := fun n => some (.clsObj n)
  ResolveMethodId := fun n => some (n, false)
  ResolveFieldJLS := fun n => some n
  ResolveEnumField := fun n => some (.enumObj n)
  GetTypeDescriptor := fun n => "LT" ++ toString n ++ ";"
  GetStringData := fun n => if n = 0 then "a" else if n = 1 then "b" else "a"
  FindMemberMethodReturnType := fun _ _ => some (.refCls 0)
  CreateAnnotationObj := fun t ms => some (.annoObj t ms)

/-- A concrete resolution service in which no type index resolves. -/
def demoRsNoTypes : ResolutionService :=
  { demoRs with ResolveType := fun _ => none }

/-- A concrete visitor that descends into records and stops at the first
element. -/
def demoVisitorElemBreak : AnnotationVisitor where
  visitAnnotationRecord := fun _ _ => .kVisitInner
  visitAnnotationElement := fun _ _ _ => .kVisitBreak
  visitArrayElement := fun _ _ _ _ => .kVisitNext

/-- A concrete visitor that continues everywhere. -/
def demoVisitorNext : AnnotationVisitor where
  visitAnnotationRecord := fun _ _ => .kVisitNext
  visitAnnotationElement := fun _ _ _ => .kVisitNext
  visitArrayElement := fun _ _ _ _ => .kVisitNext

/-- Two concrete Runtime-visible annotation records, each with one
Int-valued element named "a". -/
def demoTwoRecords : List AnnotationItem :=
  [⟨kDexVisibilityRuntime, [7, 1, 0, 0x04, 9]⟩,
   ⟨kDexVisibilityRuntime, [8, 1, 0, 0x04, 5]⟩]

/-- A concrete Build-visible annotation record. -/
def demoBuildRecord : AnnotationItem :=
  ⟨kDexVisibilityBuild, [7, 1, 0, 0x04, 9]⟩

/-- A concrete encoded Array of two Byte elements (5 and 7). -/
def demoArrayBytes : List Nat := [0x1f, 2, 0x00, 5, 0x00, 7]

/-- The elements of the element-scan example of the claim:
names "a", "b", "a" (string indices 0, 1, 2 under `demoRs`) with
Byte-encoded values 1, 2, 3. -/
def demoElems : List (Nat × List Nat) := [(0, [0x00, 1]), (1, [0x00, 2]), (2, [0x00, 3])]

/-! ## Shared helper lemmas. -/

theorem uint32OfInt_intWrap (n : Nat) (h : n < 2 ^ 32) : uint32OfInt (intWrap 32 n) = n := by
  unfold uint32OfInt intWrap
  split_ifs <;> omega

theorem decode_encode_aux (f : Nat) :
    ∀ n t, n < f → DecodeUnsignedLeb128 (EncodeUnsignedLeb128Aux f n ++ t) = some (n, t) := by
  induction f with
  | zero => intro n t h; omega
  | succ f ih =>
    intro n t h
    by_cases hn : n < 128
    · simp [EncodeUnsignedLeb128Aux, hn, DecodeUnsignedLeb128, Nat.mod_eq_of_lt,
        Nat.mod_eq_of_lt (show n < 256 by omega)]
    · have hdiv : n / 128 < f := by
        have h1 : n / 128 < n := Nat.div_lt_self (by omega) (by norm_num)
        omega
      have hrec := ih (n / 128) t hdiv
      simp only [EncodeUnsignedLeb128Aux, hn, if_false, List.cons_append]
      have hb : (n % 128 + 128) % 256 = n % 128 + 128 := by omega
      simp only [DecodeUnsignedLeb128, hb, hrec]
      have : ¬(n % 128 + 128 < 128) := by omega
      simp only [this, if_false]
      have hmod : (n % 128 + 128) % 128 = n % 128 := by omega
      simp only [hmod]
      congr 2
      omega

theorem decode_encode (n : Nat) (t : List Nat) :
    DecodeUnsignedLeb128 (EncodeUnsignedLeb128 n ++ t) = some (n, t) :=
  decode_encode_aux (n + 1) n t (by omega)

theorem numeric_scalar (vt : Nat) (h : isNumericKind vt = true) : isScalarKind vt = true := by
  simp only [isNumericKind, Bool.or_eq_true, beq_iff_eq] at h
  rcases h with ((((((rfl | rfl) | rfl) | rfl) | rfl) | rfl) | rfl) <;> decide

/-! ## C3: visibility compatibility. -/

/-- C3: in annotation-record search, a Build-tagged record matches a
Runtime-visibility request exactly when the legacy-compatibility mode is
active (SDK version set and at most the threshold); a System-tagged
record never matches a Runtime request; every other combination is exact
equality. -/
theorem visibility_compatibility (sdk a e : Nat) :
    IsVisibilityCompatible sdk kDexVisibilityBuild kDexVisibilityRuntime
      = IsSdkVersionSetAndAtMost sdk sdkVersionM
    ∧ IsVisibilityCompatible sdk kDexVisibilitySystem kDexVisibilityRuntime = false
    ∧ (¬(e = kDexVisibilityRuntime ∧ a = kDexVisibilityBuild) →
        (IsVisibilityCompatible sdk a e = true ↔ a = e)) := by
  refine ⟨?_, ?_, ?_⟩
  · by_cases h : IsSdkVersionSetAndAtMost sdk sdkVersionM <;>
      simp [IsVisibilityCompatible, kDexVisibilityBuild, kDexVisibilityRuntime, h]
  · by_cases h : IsSdkVersionSetAndAtMost sdk sdkVersionM <;>
      simp [IsVisibilityCompatible, kDexVisibilitySystem, kDexVisibilityRuntime,
        kDexVisibilityBuild, h]
  · intro hne
    by_cases he : e = kDexVisibilityRuntime
    · subst he
      have ha : a ≠ kDexVisibilityBuild := fun hh => hne ⟨rfl, hh⟩
      simp only [kDexVisibilityBuild, kDexVisibilityRuntime] at ha ⊢
      by_cases h : IsSdkVersionSetAndAtMost sdk sdkVersionM <;>
        (simp [IsVisibilityCompatible, h, kDexVisibilityRuntime]; try omega)
    · simp [IsVisibilityCompatible, he]

/-- C3 witness: with SDK version 5 (set, below the threshold) the theorem
instantiates: Build matches Runtime, and System-vs-System needs equality. -/
theorem visibility_compatibility_witness :
    IsVisibilityCompatible 5 kDexVisibilityBuild kDexVisibilityRuntime
      = IsSdkVersionSetAndAtMost 5 sdkVersionM
    ∧ (IsVisibilityCompatible 5 kDexVisibilitySystem kDexVisibilitySystem = true
        ↔ kDexVisibilitySystem = kDexVisibilitySystem) :=
  ⟨(visibility_compatibility 5 kDexVisibilitySystem kDexVisibilitySystem).1,
   (visibility_compatibility 5 kDexVisibilitySystem kDexVisibilitySystem).2.2 (by decide)⟩

/-! ## C6: Array without an expected element type fails. -/

/-- C6: materializing an Array-kind value with no expected array element
class supplied returns failure (a plain `false` return, no exception) in
every style, never constructing a container. -/
theorem array_without_expected_type_fails (rs : ResolutionService) (fuel arg : Nat)
    (bytes : List Nat) (style : AnnotationResultStyle) :
    ProcessAnnotationValue rs (fuel + 1) ((kDexAnnotationArray + 32 * (arg % 8)) :: bytes)
      none style = .err kDexAnnotationArray false := by
  have h8 : arg % 8 < 8 := Nat.mod_lt _ (by norm_num)
  have hvt : (kDexAnnotationArray + 32 * (arg % 8)) % 256 % 32 = kDexAnnotationArray := by
    simp only [kDexAnnotationArray]
    omega
  simp only [ProcessAnnotationValue, matExec, hvt]
  norm_num [isNumericKind, kDexAnnotationArray, kDexAnnotationBoolean, kDexAnnotationString,
    kDexAnnotationType, kDexAnnotationMethod, kDexAnnotationField, kDexAnnotationEnum,
    kDexAnnotationByte, kDexAnnotationShort, kDexAnnotationChar, kDexAnnotationInt,
    kDexAnnotationLong, kDexAnnotationFloat, kDexAnnotationDouble]

/-! ## C8: narrow Float payloads are left-justified. -/

/-- C8: a Float value encoded with `arg = 0` (width 1) decodes, under
every style, to the 32-bit pattern whose upper 8 bits are the stored byte
and whose lower 24 bits are zero (boxed under `kAllObjects`). -/
theorem float_width_one (rs : ResolutionService) (fuel b : Nat) (tail : List Nat)
    (ac : Option MirrorCls) :
    ProcessAnnotationValue rs (fuel + 1) (kDexAnnotationFloat :: b :: tail) ac .kAllRaw
      = .ok ⟨.jI (intWrap 32 (b % 256 * 2 ^ 24)), kDexAnnotationFloat⟩ tail
    ∧ ProcessAnnotationValue rs (fuel + 1) (kDexAnnotationFloat :: b :: tail) ac
        .kPrimitivesOrObjects
      = .ok ⟨.jI (intWrap 32 (b % 256 * 2 ^ 24)), kDexAnnotationFloat⟩ tail
    ∧ ProcessAnnotationValue rs (fuel + 1) (kDexAnnotationFloat :: b :: tail) ac .kAllObjects
      = .ok ⟨.jL (some (.boxedObj .kPrimFloat (.jI (intWrap 32 (b % 256 * 2 ^ 24))))),
              kDexAnnotationFloat⟩ tail
    ∧ JValue.GetF (.jI (intWrap 32 (b % 256 * 2 ^ 24))) = b % 256 * 2 ^ 24
    ∧ b % 256 * 2 ^ 24 % 2 ^ 24 = 0
    ∧ b % 256 * 2 ^ 24 / 2 ^ 24 = b % 256 := by
  have hb : b % 256 < 256 := Nat.mod_lt _ (by norm_num)
  have hcore : ∀ style, matExec rs (fuel + 1) (.val (kDexAnnotationFloat :: b :: tail) ac style)
      = .rVal (finishScalar style .kPrimFloat (.jI (intWrap 32 (b % 256 * 2 ^ 24)))
                 kDexAnnotationFloat tail) := by
    intro style
    simp only [matExec]
    norm_num [isNumericKind, kDexAnnotationFloat, kDexAnnotationByte, kDexAnnotationShort,
      kDexAnnotationChar, kDexAnnotationInt, kDexAnnotationLong, kDexAnnotationDouble,
      readScalar, ReadUnsignedInt, ReadLittleEndian]
  have hlt : b % 256 * 2 ^ 24 < 2 ^ 32 := by
    have h2 : b % 256 ≤ 255 := by omega
    calc b % 256 * 2 ^ 24 ≤ 255 * 2 ^ 24 := Nat.mul_le_mul_right _ h2
    _ < 2 ^ 32 := by norm_num
  refine ⟨?_, ?_, ?_, ?_, Nat.mul_mod_left _ _, Nat.mul_div_cancel _ (by norm_num)⟩
  · simp [ProcessAnnotationValue, hcore, finishScalar]
  · simp [ProcessAnnotationValue, hcore, finishScalar]
  · simp [ProcessAnnotationValue, hcore, finishScalar]
  · simp only [JValue.GetF]
    exact uint32OfInt_intWrap _ hlt

/-! ## C7: unknown tags are hard failures on both paths. -/

/-- C7: a header byte whose low-5-bit tag is not one of the sixteen
defined kinds hits the `default:` arm of both paths: the skip path aborts
(`LOG(FATAL)`), and the decode path returns a hard failure, with no local
recovery and no silent skip. -/
theorem unknown_tag_hard_failure (fuel : Nat) (rs : ResolutionService) (b : Nat)
    (bytes : List Nat) (ac : Option MirrorCls) (style : AnnotationResultStyle)
    (h : isDefinedValueTag (b % 256 % 32) = false) :
    SkipAnnotationValue (fuel + 1) (b :: bytes) = none
    ∧ ProcessAnnotationValue rs (fuel + 1) (b :: bytes) ac style
        = .err (b % 256 % 32) false := by
  simp only [isDefinedValueTag, Bool.or_eq_false_iff, beq_eq_false_iff_ne] at h
  obtain ⟨⟨⟨⟨hS, hBool⟩, hNull⟩, hAnno⟩, hArr⟩ := h
  have hnum : isNumericKind (b % 256 % 32) = false := by
    cases hn : isNumericKind (b % 256 % 32) with
    | false => rfl
    | true => rw [numeric_scalar _ hn] at hS; exact absurd hS (by simp)
  have h12 := hS
  simp only [isScalarKind, Bool.or_eq_false_iff, beq_eq_false_iff_ne] at h12
  obtain ⟨⟨⟨⟨⟨⟨⟨⟨⟨⟨⟨_, _⟩, _⟩, _⟩, _⟩, _⟩, _⟩, hStr⟩, hTy⟩, hMe⟩, hFi⟩, hEn⟩ := h12
  constructor
  · simp [SkipAnnotationValue, skipExec, hS, hArr, hAnno, hBool, hNull]
  · simp [ProcessAnnotationValue, matExec, hnum, hBool, hStr, hTy, hMe, hFi, hEn, hArr, hAnno,
      hNull]

/-- C7 witness: tag 0x01 is undefined; both paths reject it. -/
theorem unknown_tag_hard_failure_witness :
    SkipAnnotationValue 4 [1, 9, 9] = none
    ∧ ProcessAnnotationValue demoRs 4 [1, 9, 9] none .kAllObjects = .err 1 false :=
  unknown_tag_hard_failure 3 demoRs 1 [9, 9] none .kAllObjects (by decide)

/-! ## C10: full-set extraction filters by strict visibility equality. -/

theorem process_set_loop_all_filtered (rs : ResolutionService) (fuel v : Nat) :
    ∀ items : List AnnotationItem, (∀ it ∈ items, it.visibility_ ≠ v) →
      ProcessAnnotationSetLoop rs fuel v items = some [] := by
  intro items
  induction items with
  | nil => intro _; rfl
  | cons it rest ih =>
    intro h
    have h1 : it.visibility_ ≠ v := h it (by simp)
    simp only [ProcessAnnotationSetLoop, ne_eq, h1, not_false_eq_true, if_true]
    exact ih fun x hx => h x (by simp [hx])

/-- C10: `ProcessAnnotationSet` filters records by strict visibility
equality (not `IsVisibilityCompatible`): a set of Build-tagged records
yields an empty Runtime-visibility result, even under an SDK version for
which the single-record search's compatibility relation would accept
Build. -/
theorem fullset_strict_visibility (rs : ResolutionService) (fuel sdk : Nat)
    (items : List AnnotationItem)
    (h : ∀ it ∈ items, it.visibility_ = kDexVisibilityBuild) :
    ProcessAnnotationSet rs fuel (some items) kDexVisibilityRuntime = some []
    ∧ (IsSdkVersionSetAndAtMost sdk sdkVersionM = true →
        IsVisibilityCompatible sdk kDexVisibilityBuild kDexVisibilityRuntime = true) := by
  constructor
  · exact process_set_loop_all_filtered rs fuel kDexVisibilityRuntime items
      fun it hit => by simp [h it hit, kDexVisibilityBuild, kDexVisibilityRuntime]
  · intro hs
    simp [IsVisibilityCompatible, hs, kDexVisibilityBuild, kDexVisibilityRuntime]

/-- C10 witness: one Build record, SDK version 5 (legacy mode active). -/
theorem fullset_strict_visibility_witness :
    ProcessAnnotationSet demoRs 5 (some [demoBuildRecord]) kDexVisibilityRuntime = some []
    ∧ IsVisibilityCompatible 5 kDexVisibilityBuild kDexVisibilityRuntime = true :=
  ⟨(fullset_strict_visibility demoRs 5 5 [demoBuildRecord] (by decide)).1,
   (fullset_strict_visibility demoRs 5 5 [demoBuildRecord] (by decide)).2 (by decide)⟩

/-! ## C5: unresolvable Type values. -/

/-- C5: a Type value whose index does not resolve yields, under
`kAllObjects`, the `TypeNotPresentException` placeholder object with the
call succeeding (exception cleared); under `kPrimitivesOrObjects` a hard
failure with the exception left pending; under `kAllRaw` the stored index
with no dependence on any resolution service. -/
theorem unresolvable_type_placeholder (rs : ResolutionService) (fuel b : Nat)
    (tail : List Nat) (ac : Option MirrorCls)
    (h : rs.ResolveType (b % 256) = none) :
    ProcessAnnotationValue rs (fuel + 1) (kDexAnnotationType :: b :: tail) ac .kAllObjects
      = .ok ⟨.jL (some (.typeNotPresent (rs.GetTypeDescriptor (b % 256)))),
              kDexAnnotationType⟩ tail
    ∧ ProcessAnnotationValue rs (fuel + 1) (kDexAnnotationType :: b :: tail) ac
        .kPrimitivesOrObjects = .err kDexAnnotationType true
    ∧ ∀ rs2 : ResolutionService,
        ProcessAnnotationValue rs2 (fuel + 1) (kDexAnnotationType :: b :: tail) ac .kAllRaw
          = .ok ⟨.jI ((b % 256 : Nat) : Int), kDexAnnotationType⟩ tail := by
  have hw : intWrap 32 ((b : Int) % 256) = (b : Int) % 256 := by
    unfold intWrap
    split_ifs <;> omega
  refine ⟨?_, ?_, ?_⟩
  · simp [ProcessAnnotationValue, matExec, isNumericKind, kDexAnnotationType,
      kDexAnnotationByte, kDexAnnotationShort, kDexAnnotationChar, kDexAnnotationInt,
      kDexAnnotationLong, kDexAnnotationFloat, kDexAnnotationDouble, kDexAnnotationBoolean,
      kDexAnnotationString, ReadUnsignedInt, ReadLittleEndian, h]
  · simp [ProcessAnnotationValue, matExec, isNumericKind, kDexAnnotationType,
      kDexAnnotationByte, kDexAnnotationShort, kDexAnnotationChar, kDexAnnotationInt,
      kDexAnnotationLong, kDexAnnotationFloat, kDexAnnotationDouble, kDexAnnotationBoolean,
      kDexAnnotationString, ReadUnsignedInt, ReadLittleEndian, h]
  · intro rs2
    simp [ProcessAnnotationValue, matExec, isNumericKind, kDexAnnotationType,
      kDexAnnotationByte, kDexAnnotationShort, kDexAnnotationChar, kDexAnnotationInt,
      kDexAnnotationLong, kDexAnnotationFloat, kDexAnnotationDouble, kDexAnnotationBoolean,
      kDexAnnotationString, ReadUnsignedInt, ReadLittleEndian, hw]

/-- C5 witness: under a service with no resolvable types, index 3
materializes to the placeholder under `kAllObjects`. -/
theorem unresolvable_type_placeholder_witness :
    ProcessAnnotationValue demoRsNoTypes 1 [kDexAnnotationType, 3] none .kAllObjects
      = .ok ⟨.jL (some (.typeNotPresent (demoRsNoTypes.GetTypeDescriptor 3))),
              kDexAnnotationType⟩ [] :=
  (unresolvable_type_placeholder demoRsNoTypes 0 3 [] none rfl).1

/-! ## C2: Raw-style arrays fail; non-Raw arrays preserve stored bits. -/

theorem pav_byte_step (rs : ResolutionService) (f v : Nat) (rest : List Nat)
    (comp : MirrorCls) :
    matExec rs (f + 1) (.val (kDexAnnotationByte :: v :: rest) (some comp) .kPrimitivesOrObjects)
      = .rVal (.ok ⟨.jB (intWrap 8 (signedOfWidth 1 (v % 256))), kDexAnnotationByte⟩ rest) := by
  simp [matExec, isNumericKind, kDexAnnotationByte, readScalar, ReadSignedInt,
    ReadLittleEndian, finishScalar]

theorem elems_bytes (rs : ResolutionService) :
    ∀ (payloads : List Nat) (ef : Nat) (rest : List Nat),
      matExec rs (payloads.length + 1 + ef)
        (.elems .primByte payloads.length (encodeByteElems payloads ++ rest))
      = .rElems
          (some (payloads.map (fun v => .sB (intWrap 8 (signedOfWidth 1 (v % 256)))), rest))
          false := by
  intro payloads
  induction payloads with
  | nil =>
    intro ef rest
    rw [show ([] : List Nat).length + 1 + ef = ef + 1 from by simp; omega]
    simp [matExec, encodeByteElems]
  | cons v vs ih =>
    intro ef rest
    rw [show (v :: vs).length + 1 + ef = (vs.length + ef + 1) + 1 from by simp; omega]
    have ih2 := ih ef rest
    rw [show vs.length + 1 + ef = vs.length + ef + 1 from by omega] at ih2
    simp [matExec, encodeByteElems, ih2, isNumericKind, kDexAnnotationByte, readScalar,
      ReadSignedInt, ReadLittleEndian, finishScalar, slotOf, MirrorCls.IsPrimitive,
      JValue.GetB]

theorem byte_bits (v : Nat) :
    slotBits8 (.sB (intWrap 8 (signedOfWidth 1 (v % 256)))) = v % 256 := by
  unfold slotBits8 intWrap signedOfWidth
  norm_num
  split_ifs <;> omega

theorem array_bytes_decode (rs : ResolutionService) (payloads tail : List Nat)
    (style : AnnotationResultStyle) (hst : style ≠ .kAllRaw) :
    ProcessAnnotationValue rs (payloads.length + 2)
        (kDexAnnotationArray :: (EncodeUnsignedLeb128 payloads.length ++
          (encodeByteElems payloads ++ tail)))
        (some (.arrayOf .primByte)) style
      = .ok ⟨.jL (some (.arrayObj (payloads.map
          (fun v => .sB (intWrap 8 (signedOfWidth 1 (v % 256))))))), kDexAnnotationArray⟩
          tail := by
  rw [show payloads.length + 2 = (payloads.length + 1) + 1 from by omega]
  have helems := elems_bytes rs payloads 0 tail
  rw [show payloads.length + 1 + 0 = payloads.length + 1 from by omega] at helems
  simp [ProcessAnnotationValue, matExec, isNumericKind, kDexAnnotationArray,
    kDexAnnotationByte, kDexAnnotationShort, kDexAnnotationChar, kDexAnnotationInt,
    kDexAnnotationLong, kDexAnnotationFloat, kDexAnnotationDouble, kDexAnnotationBoolean,
    kDexAnnotationString, kDexAnnotationType, kDexAnnotationMethod, kDexAnnotationField,
    kDexAnnotationEnum, kDexAnnotationAnno, kDexAnnotationNull, hst,
    MirrorCls.GetComponentType, decode_encode, helems]

/-- C2 counterexample: a Raw-style materialization of an Array of two
primitive (Byte) elements fails outright — it does not succeed with the
raw integers as the claim states. -/
theorem raw_array_counterexample :
    ProcessAnnotationValue demoRs 5 demoArrayBytes (some (.arrayOf .primByte)) .kAllRaw
      = .err kDexAnnotationArray false := rfl

/-- C2 (amended): materializing an Array-kind value with style Raw always
fails; with a non-Raw style and the matching primitive array element
class supplied, an Array of N primitive (byte) elements succeeds and
yields the N raw integers identical to the stored bit patterns, in
original order. -/
theorem array_shape_preservation (rs : ResolutionService) (fuel arg : Nat)
    (hdrRest : List Nat) (ac : Option MirrorCls) (payloads tail : List Nat) :
    ProcessAnnotationValue rs (fuel + 1) ((kDexAnnotationArray + 32 * (arg % 8)) :: hdrRest)
        ac .kAllRaw = .err kDexAnnotationArray false
    ∧ ProcessAnnotationValue rs (payloads.length + 2)
        (kDexAnnotationArray :: (EncodeUnsignedLeb128 payloads.length ++
          (encodeByteElems payloads ++ tail)))
        (some (.arrayOf .primByte)) .kPrimitivesOrObjects
      = .ok ⟨.jL (some (.arrayObj (payloads.map
          (fun v => .sB (intWrap 8 (signedOfWidth 1 (v % 256))))))), kDexAnnotationArray⟩ tail
    ∧ ProcessAnnotationValue rs (payloads.length + 2)
        (kDexAnnotationArray :: (EncodeUnsignedLeb128 payloads.length ++
          (encodeByteElems payloads ++ tail)))
        (some (.arrayOf .primByte)) .kAllObjects
      = .ok ⟨.jL (some (.arrayObj (payloads.map
          (fun v => .sB (intWrap 8 (signedOfWidth 1 (v % 256))))))), kDexAnnotationArray⟩ tail
    ∧ (payloads.map (fun v => ArrSlot.sB (intWrap 8 (signedOfWidth 1 (v % 256))))).map slotBits8
      = payloads.map (· % 256) := by
  refine ⟨?_, array_bytes_decode rs payloads tail _ (by simp),
          array_bytes_decode rs payloads tail _ (by simp), ?_⟩
  · have h8 : arg % 8 < 8 := Nat.mod_lt _ (by norm_num)
    have hvt : (kDexAnnotationArray + 32 * (arg % 8)) % 256 % 32 = kDexAnnotationArray := by
      simp only [kDexAnnotationArray]
      omega
    simp only [ProcessAnnotationValue, matExec, hvt]
    norm_num [isNumericKind, kDexAnnotationArray, kDexAnnotationBoolean, kDexAnnotationString,
      kDexAnnotationType, kDexAnnotationMethod, kDexAnnotationField, kDexAnnotationEnum,
      kDexAnnotationByte, kDexAnnotationShort, kDexAnnotationChar, kDexAnnotationInt,
      kDexAnnotationLong, kDexAnnotationFloat, kDexAnnotationDouble]
  · induction payloads with
    | nil => rfl
    | cons v vs ih => simp [byte_bits, ih]

/-! ## C4: element scan returns the first match in stored order. -/

theorem skip_byte (f v : Nat) (rest : List Nat) :
    SkipAnnotationValue (f + 1) (kDexAnnotationByte :: v :: rest) = some rest := by
  simp [SkipAnnotationValue, skipExec, isScalarKind, kDexAnnotationByte, kDexAnnotationShort,
    kDexAnnotationChar, kDexAnnotationInt, kDexAnnotationLong, kDexAnnotationFloat,
    kDexAnnotationDouble, kDexAnnotationString, kDexAnnotationType, kDexAnnotationMethod,
    kDexAnnotationField, kDexAnnotationEnum]

/-- C4: on a body built from an abstract element list (each value
self-delimiting under Skip), `SearchEncodedAnnotation` decodes the header,
then returns the cursor position of the value of the first element in
stored order whose dereferenced name equals the requested name (so with
duplicate names the earliest occurrence wins), skipping the value and
continuing on each mismatch, and returns not-found after `elementCount`
elements with no match — exactly `FindElemSpec`. -/
theorem element_scan_first_match (rs : ResolutionService) (fuel t : Nat)
    (elems : List (Nat × List Nat)) (tail : List Nat) (name : String)
    (hskip : ∀ e ∈ elems, ∀ rest : List Nat,
        SkipAnnotationValue fuel (e.2 ++ rest) = some rest) :
    SearchEncodedAnno rs fuel
        (EncodeUnsignedLeb128 t ++ (EncodeUnsignedLeb128 elems.length ++ EncodeElems elems tail))
        name
      = FindElemSpec rs name elems tail := by
  simp only [SearchEncodedAnno, decode_encode]
  induction elems with
  | nil => simp [SearchLoop, FindElemSpec, EncodeElems]
  | cons e es ih =>
    simp only [List.length_cons, EncodeElems, SearchLoop, decode_encode, FindElemSpec]
    by_cases hname : rs.GetStringData e.1 = name
    · simp [hname]
    · have hs := hskip e (by simp) (EncodeElems es tail)
      simp only [hname, if_false, hs]
      exact ih fun x hx => hskip x (by simp [hx])

/-- C4 witness: the claim's own example — elements named "a", "b", "a"
with values 1, 2, 3; searching "a" returns the cursor at the first
element's value (the encoded value 1). -/
theorem element_scan_first_match_witness :
    SearchEncodedAnno demoRs 5
        (EncodeUnsignedLeb128 9 ++
          (EncodeUnsignedLeb128 demoElems.length ++ EncodeElems demoElems []))
        "a"
      = FindElemSpec demoRs "a" demoElems [] :=
  element_scan_first_match demoRs 5 9 demoElems [] "a" (by
    intro e he rest
    simp only [demoElems, List.mem_cons, List.not_mem_nil, or_false] at he
    rcases he with rfl | rfl | rfl <;> exact skip_byte 4 _ rest)

/-! ## C1: skip/decode byte parity. -/

theorem skip_mono : ∀ fuel req r, skipExec fuel req = some r → skipExec (fuel + 1) req = some r := by
  intro fuel
  induction fuel with
  | zero => intro req r h; simp [skipExec] at h
  | succ n ih =>
    intro req r h
    cases req with
    | one bytes =>
      cases bytes with
      | nil => simp [skipExec] at h
      | cons b ann =>
        simp only [skipExec] at h ⊢
        split_ifs at h ⊢
        · exact h
        · cases hleb : DecodeUnsignedLeb128 ann with
          | none => rw [hleb] at h; simp at h
          | some p =>
            obtain ⟨size, rr⟩ := p
            rw [hleb] at h
            exact ih _ _ h
        · cases hleb : DecodeUnsignedLeb128 ann with
          | none => rw [hleb] at h; simp at h
          | some p =>
            obtain ⟨ti, r1⟩ := p
            rw [hleb] at h
            dsimp only at h ⊢
            cases hleb2 : DecodeUnsignedLeb128 r1 with
            | none => rw [hleb2] at h; simp at h
            | some p2 =>
              obtain ⟨size, r2⟩ := p2
              rw [hleb2] at h
              exact ih _ _ h
        all_goals exact h
    | many c bytes =>
      cases c with
      | zero => simpa [skipExec] using h
      | succ c =>
        simp only [skipExec] at h ⊢
        cases h1 : skipExec n (.one bytes) with
        | none => rw [h1] at h; simp at h
        | some r1 =>
          rw [h1] at h
          rw [ih _ _ h1]
          exact ih _ _ h
    | pairs c bytes =>
      cases c with
      | zero => simpa [skipExec] using h
      | succ c =>
        simp only [skipExec] at h ⊢
        cases hleb : DecodeUnsignedLeb128 bytes with
        | none => rw [hleb] at h; simp at h
        | some p =>
          obtain ⟨ni, r0⟩ := p
          rw [hleb] at h
          dsimp only at h ⊢
          cases h1 : skipExec n (.one r0) with
          | none => rw [h1] at h; simp at h
          | some r1 =>
            rw [h1] at h
            rw [ih _ _ h1]
            exact ih _ _ h

theorem finishScalar_rest {style : AnnotationResultStyle} {prim : PrimitiveType} {jv : JValue}
    {vt : Nat} {rest : List Nat} {avv : AnnotationValue} {rest2 : List Nat}
    (h : finishScalar style prim jv vt rest = .ok avv rest2) : rest2 = rest := by
  unfold finishScalar at h
  split_ifs at h <;> (injection h with h1 h2; exact h2.symm)

theorem refCase_rest {style : AnnotationResultStyle} {ro : Nat → Option Obj} {vt idx : Nat}
    {rest : List Nat} {avv : AnnotationValue} {rest2 : List Nat}
    (h : refCase style ro vt idx rest = .ok avv rest2) : rest2 = rest := by
  unfold refCase at h
  split_ifs at h
  · injection h with h1 h2; exact h2.symm
  · cases hr : ro idx with
    | none => rw [hr] at h; simp at h
    | some o =>
      rw [hr] at h
      dsimp only at h
      injection h with h1 h2
      exact h2.symm

theorem parity_all (rs : ResolutionService) : ∀ fuel : Nat,
    (∀ bytes ac st avv rest, matExec rs fuel (.val bytes ac st) = .rVal (.ok avv rest) →
      skipExec fuel (.one bytes) = some rest)
    ∧ (∀ comp c bytes slots rest e,
        matExec rs fuel (.elems comp c bytes) = .rElems (some (slots, rest)) e →
        skipExec fuel (.many c bytes) = some rest)
    ∧ (∀ t c bytes ms rest e,
        matExec rs fuel (.members t c bytes) = .rMembers (some (ms, rest)) e →
        skipExec fuel (.pairs c bytes) = some rest)
    ∧ (∀ t bytes m rest e,
        matExec rs fuel (.member t bytes) = .rMember (some (m, rest)) e →
        ∃ ni r1, DecodeUnsignedLeb128 bytes = some (ni, r1) ∧ skipExec fuel (.one r1) = some rest)
    ∧ (∀ bytes o rest e,
        matExec rs fuel (.body bytes) = .rBody (some (o, rest)) e →
        ∃ ti r1 size r2, DecodeUnsignedLeb128 bytes = some (ti, r1)
          ∧ DecodeUnsignedLeb128 r1 = some (size, r2)
          ∧ skipExec fuel (.pairs size r2) = some rest) := by
  intro fuel
  induction fuel with
  | zero =>
    refine ⟨fun bytes ac st avv rest h => ?_, fun comp c bytes slots rest e h => ?_,
            fun t c bytes ms rest e h => ?_, fun t bytes m rest e h => ?_,
            fun bytes o rest e h => ?_⟩ <;> simp [matExec] at h
  | succ n IH =>
    obtain ⟨ih1, ih2, ih3, ih4, ih5⟩ := IH
    refine ⟨?_, ?_, ?_, ?_, ?_⟩
    · -- ProcessAnnotationValue vs SkipAnnotationValue
      intro bytes ac st avv rest h
      cases bytes with
      | nil => simp [matExec] at h
      | cons b ann =>
        simp only [matExec] at h
        by_cases c1 : isNumericKind (b % 256 % 32) = true
        · -- numeric kinds
          rw [if_pos c1] at h
          cases hr : readScalar (b % 256 % 32) ann (b % 256 / 32) with
          | none => rw [hr] at h; simp at h
          | some p =>
            obtain ⟨jv, prim⟩ := p
            rw [hr] at h
            dsimp only at h
            simp only [MatRes.rVal.injEq] at h
            have hrest := finishScalar_rest h
            simp [skipExec, numeric_scalar _ c1, hrest]
        · rw [if_neg c1] at h
          by_cases c2 : b % 256 % 32 = kDexAnnotationBoolean
          · -- Boolean
            rw [if_pos c2] at h
            simp only [MatRes.rVal.injEq] at h
            have hrest := finishScalar_rest h
            simp [skipExec, c2, hrest, isScalarKind, kDexAnnotationByte, kDexAnnotationShort, kDexAnnotationChar, kDexAnnotationInt, kDexAnnotationLong, kDexAnnotationFloat, kDexAnnotationDouble, kDexAnnotationString, kDexAnnotationType, kDexAnnotationMethod, kDexAnnotationField, kDexAnnotationEnum, kDexAnnotationBoolean, kDexAnnotationNull, kDexAnnotationAnno, kDexAnnotationArray]
          · rw [if_neg c2] at h
            by_cases c3 : b % 256 % 32 = kDexAnnotationString
            · -- String
              rw [if_pos c3] at h
              cases hr : ReadUnsignedInt ann (b % 256 / 32) false with
              | none => rw [hr] at h; simp at h
              | some idx =>
                rw [hr] at h
                dsimp only at h
                simp only [MatRes.rVal.injEq] at h
                have hrest := refCase_rest h
                simp [skipExec, c3, hrest, isScalarKind, kDexAnnotationByte, kDexAnnotationShort, kDexAnnotationChar, kDexAnnotationInt, kDexAnnotationLong, kDexAnnotationFloat, kDexAnnotationDouble, kDexAnnotationString, kDexAnnotationType, kDexAnnotationMethod, kDexAnnotationField, kDexAnnotationEnum, kDexAnnotationBoolean, kDexAnnotationNull, kDexAnnotationAnno, kDexAnnotationArray]
            · rw [if_neg c3] at h
              by_cases c4 : b % 256 % 32 = kDexAnnotationType
              · -- Type
                rw [if_pos c4] at h
                cases hr : ReadUnsignedInt ann (b % 256 / 32) false with
                | none => rw [hr] at h; simp at h
                | some idx =>
                  rw [hr] at h
                  dsimp only at h
                  have hrest : rest = ann.drop (b % 256 / 32 + 1) := by
                    by_cases hraw : st = AnnotationResultStyle.kAllRaw
                    · rw [if_pos hraw] at h
                      simp only [MatRes.rVal.injEq, PAVResult.ok.injEq] at h
                      exact h.2.symm
                    · rw [if_neg hraw] at h
                      cases hres : rs.ResolveType idx with
                      | some o =>
                        rw [hres] at h
                        dsimp only at h
                        simp only [MatRes.rVal.injEq, PAVResult.ok.injEq] at h
                        exact h.2.symm
                      | none =>
                        rw [hres] at h
                        dsimp only at h
                        by_cases hao : st = AnnotationResultStyle.kAllObjects
                        · rw [if_pos hao] at h
                          simp only [MatRes.rVal.injEq, PAVResult.ok.injEq] at h
                          exact h.2.symm
                        · rw [if_neg hao] at h
                          simp at h
                  simp [skipExec, c4, hrest, isScalarKind, kDexAnnotationByte, kDexAnnotationShort, kDexAnnotationChar, kDexAnnotationInt, kDexAnnotationLong, kDexAnnotationFloat, kDexAnnotationDouble, kDexAnnotationString, kDexAnnotationType, kDexAnnotationMethod, kDexAnnotationField, kDexAnnotationEnum, kDexAnnotationBoolean, kDexAnnotationNull, kDexAnnotationAnno, kDexAnnotationArray]
              · rw [if_neg c4] at h
                by_cases c5 : b % 256 % 32 = kDexAnnotationMethod
                · -- Method
                  rw [if_pos c5] at h
                  cases hr : ReadUnsignedInt ann (b % 256 / 32) false with
                  | none => rw [hr] at h; simp at h
                  | some idx =>
                    rw [hr] at h
                    dsimp only at h
                    simp only [MatRes.rVal.injEq] at h
                    have hrest := refCase_rest h
                    simp [skipExec, c5, hrest, isScalarKind, kDexAnnotationByte, kDexAnnotationShort, kDexAnnotationChar, kDexAnnotationInt, kDexAnnotationLong, kDexAnnotationFloat, kDexAnnotationDouble, kDexAnnotationString, kDexAnnotationType, kDexAnnotationMethod, kDexAnnotationField, kDexAnnotationEnum, kDexAnnotationBoolean, kDexAnnotationNull, kDexAnnotationAnno, kDexAnnotationArray]
                · rw [if_neg c5] at h
                  by_cases c6 : b % 256 % 32 = kDexAnnotationField
                  · -- Field
                    rw [if_pos c6] at h
                    cases hr : ReadUnsignedInt ann (b % 256 / 32) false with
                    | none => rw [hr] at h; simp at h
                    | some idx =>
                      rw [hr] at h
                      dsimp only at h
                      simp only [MatRes.rVal.injEq] at h
                      have hrest := refCase_rest h
                      simp [skipExec, c6, hrest, isScalarKind, kDexAnnotationByte, kDexAnnotationShort, kDexAnnotationChar, kDexAnnotationInt, kDexAnnotationLong, kDexAnnotationFloat, kDexAnnotationDouble, kDexAnnotationString, kDexAnnotationType, kDexAnnotationMethod, kDexAnnotationField, kDexAnnotationEnum, kDexAnnotationBoolean, kDexAnnotationNull, kDexAnnotationAnno, kDexAnnotationArray]
                  · rw [if_neg c6] at h
                    by_cases c7 : b % 256 % 32 = kDexAnnotationEnum
                    · -- Enum
                      rw [if_pos c7] at h
                      cases hr : ReadUnsignedInt ann (b % 256 / 32) false with
                      | none => rw [hr] at h; simp at h
                      | some idx =>
                        rw [hr] at h
                        dsimp only at h
                        simp only [MatRes.rVal.injEq] at h
                        have hrest := refCase_rest h
                        simp [skipExec, c7, hrest, isScalarKind, kDexAnnotationByte, kDexAnnotationShort, kDexAnnotationChar, kDexAnnotationInt, kDexAnnotationLong, kDexAnnotationFloat, kDexAnnotationDouble, kDexAnnotationString, kDexAnnotationType, kDexAnnotationMethod, kDexAnnotationField, kDexAnnotationEnum, kDexAnnotationBoolean, kDexAnnotationNull, kDexAnnotationAnno, kDexAnnotationArray]
                    · rw [if_neg c7] at h
                      by_cases c8 : b % 256 % 32 = kDexAnnotationArray
                      · -- Array
                        rw [if_pos c8] at h
                        by_cases hg : st = AnnotationResultStyle.kAllRaw ∨ ac = none
                        · rw [if_pos hg] at h; simp at h
                        · rw [if_neg hg] at h
                          cases ac with
                          | none => simp at h
                          | some acls =>
                            dsimp only at h
                            cases hc : acls.GetComponentType with
                            | none => rw [hc] at h; simp at h
                            | some comp =>
                              rw [hc] at h
                              dsimp only at h
                              cases hleb : DecodeUnsignedLeb128 ann with
                              | none => rw [hleb] at h; simp at h
                              | some p =>
                                obtain ⟨size, rr⟩ := p
                                rw [hleb] at h
                                dsimp only at h
                                cases he : matExec rs n (.elems comp size rr) with
                                | rElems rr2 ee =>
                                  rw [he] at h
                                  cases rr2 with
                                  | none => simp at h
                                  | some pr =>
                                    obtain ⟨slots2, rest2⟩ := pr
                                    dsimp only at h
                                    simp only [MatRes.rVal.injEq, PAVResult.ok.injEq] at h
                                    have hsk := ih2 comp size rr slots2 rest2 ee he
                                    simp [skipExec, c8, hleb, hsk, h.2, isScalarKind, kDexAnnotationByte, kDexAnnotationShort, kDexAnnotationChar, kDexAnnotationInt, kDexAnnotationLong, kDexAnnotationFloat, kDexAnnotationDouble, kDexAnnotationString, kDexAnnotationType, kDexAnnotationMethod, kDexAnnotationField, kDexAnnotationEnum, kDexAnnotationBoolean, kDexAnnotationNull, kDexAnnotationAnno, kDexAnnotationArray]
                                | rVal rv => rw [he] at h; simp at h
                                | rBody rb eb => rw [he] at h; simp at h
                                | rMembers rm em => rw [he] at h; simp at h
                                | rMember rm em => rw [he] at h; simp at h
                      · rw [if_neg c8] at h
                        by_cases c9 : b % 256 % 32 = kDexAnnotationAnno
                        · -- Annotation
                          rw [if_pos c9] at h
                          by_cases c9r : st = AnnotationResultStyle.kAllRaw
                          · rw [if_pos c9r] at h; simp at h
                          · rw [if_neg c9r] at h
                            cases hb : matExec rs n (.body ann) with
                            | rBody rb eb =>
                              rw [hb] at h
                              cases rb with
                              | none => simp at h
                              | some pr =>
                                obtain ⟨o, rest2⟩ := pr
                                dsimp only at h
                                simp only [MatRes.rVal.injEq, PAVResult.ok.injEq] at h
                                obtain ⟨ti, r1, size, r2, hleb1, hleb2, hpairs⟩ :=
                                  ih5 ann o rest2 eb hb
                                simp [skipExec, c9, hleb1, hleb2, hpairs, h.2, isScalarKind, kDexAnnotationByte, kDexAnnotationShort, kDexAnnotationChar, kDexAnnotationInt, kDexAnnotationLong, kDexAnnotationFloat, kDexAnnotationDouble, kDexAnnotationString, kDexAnnotationType, kDexAnnotationMethod, kDexAnnotationField, kDexAnnotationEnum, kDexAnnotationBoolean, kDexAnnotationNull, kDexAnnotationAnno, kDexAnnotationArray]
                            | rVal rv => rw [hb] at h; simp at h
                            | rElems rr ee => rw [hb] at h; simp at h
                            | rMembers rm em => rw [hb] at h; simp at h
                            | rMember rm em => rw [hb] at h; simp at h
                        · rw [if_neg c9] at h
                          by_cases c10 : b % 256 % 32 = kDexAnnotationNull
                          · -- Null
                            rw [if_pos c10] at h
                            by_cases c10r : st = AnnotationResultStyle.kAllRaw
                            · rw [if_pos c10r] at h
                              simp only [MatRes.rVal.injEq, PAVResult.ok.injEq] at h
                              simp [skipExec, c10, h.2, isScalarKind, kDexAnnotationByte, kDexAnnotationShort, kDexAnnotationChar, kDexAnnotationInt, kDexAnnotationLong, kDexAnnotationFloat, kDexAnnotationDouble, kDexAnnotationString, kDexAnnotationType, kDexAnnotationMethod, kDexAnnotationField, kDexAnnotationEnum, kDexAnnotationBoolean, kDexAnnotationNull, kDexAnnotationAnno, kDexAnnotationArray]
                            · rw [if_neg c10r] at h
                              simp only [MatRes.rVal.injEq, PAVResult.ok.injEq] at h
                              simp [skipExec, c10, h.2, isScalarKind, kDexAnnotationByte, kDexAnnotationShort, kDexAnnotationChar, kDexAnnotationInt, kDexAnnotationLong, kDexAnnotationFloat, kDexAnnotationDouble, kDexAnnotationString, kDexAnnotationType, kDexAnnotationMethod, kDexAnnotationField, kDexAnnotationEnum, kDexAnnotationBoolean, kDexAnnotationNull, kDexAnnotationAnno, kDexAnnotationArray]
                          · rw [if_neg c10] at h
                            simp at h
    · -- array elements loop vs SkipValues
      intro comp c bytes slots rest e h
      cases c with
      | zero =>
        simp only [matExec] at h
        simp only [MatRes.rElems.injEq, Option.some.injEq, Prod.mk.injEq] at h
        simp [skipExec, h.1.2]
      | succ c =>
        simp only [matExec] at h
        cases hv : matExec rs n (.val bytes (some comp) .kPrimitivesOrObjects) with
        | rVal rv =>
          rw [hv] at h
          cases rv with
          | ok avv r1 =>
            dsimp only at h
            cases hsl : slotOf comp avv with
            | none => rw [hsl] at h; simp at h
            | some slot =>
              rw [hsl] at h
              dsimp only at h
              cases he2 : matExec rs n (.elems comp c r1) with
              | rElems rr ee =>
                rw [he2] at h
                cases rr with
                | none => simp at h
                | some pr =>
                  obtain ⟨slots2, rest2⟩ := pr
                  dsimp only at h
                  simp only [MatRes.rElems.injEq, Option.some.injEq, Prod.mk.injEq] at h
                  have hA := ih1 bytes (some comp) .kPrimitivesOrObjects avv r1 hv
                  have hB := ih2 comp c r1 slots2 rest2 ee he2
                  simp [skipExec, hA, hB, h.1.2]
              | rVal rv2 => rw [he2] at h; simp at h
              | rBody rb eb => rw [he2] at h; simp at h
              | rMembers rm em => rw [he2] at h; simp at h
              | rMember rm em => rw [he2] at h; simp at h
          | err ty ex => dsimp only at h; simp at h
          | oob => dsimp only at h; simp at h
        | rElems rr ee => rw [hv] at h; simp at h
        | rBody rb eb => rw [hv] at h; simp at h
        | rMembers rm em => rw [hv] at h; simp at h
        | rMember rm em => rw [hv] at h; simp at h
    · -- annotation member loop vs SkipNamePairs
      intro t c bytes ms rest e h
      cases c with
      | zero =>
        simp only [matExec] at h
        simp only [MatRes.rMembers.injEq, Option.some.injEq, Prod.mk.injEq] at h
        simp [skipExec, h.1.2]
      | succ c =>
        simp only [matExec] at h
        cases hm : matExec rs n (.member t bytes) with
        | rMember rm em =>
          rw [hm] at h
          cases rm with
          | none => simp at h
          | some pm =>
            obtain ⟨m1, r1⟩ := pm
            dsimp only at h
            cases he2 : matExec rs n (.members t c r1) with
            | rMembers rr ee =>
              rw [he2] at h
              cases rr with
              | none => simp at h
              | some pr =>
                obtain ⟨ms2, rest2⟩ := pr
                dsimp only at h
                simp only [MatRes.rMembers.injEq, Option.some.injEq, Prod.mk.injEq] at h
                obtain ⟨ni, rl, hleb, hone⟩ := ih4 t bytes m1 r1 em hm
                have hB := ih3 t c r1 ms2 rest2 ee he2
                simp [skipExec, hleb, hone, hB, h.1.2]
            | rVal rv2 => rw [he2] at h; simp at h
            | rElems rr ee => rw [he2] at h; simp at h
            | rBody rb eb => rw [he2] at h; simp at h
            | rMember rm2 em2 => rw [he2] at h; simp at h
        | rVal rv => rw [hm] at h; simp at h
        | rElems rr ee => rw [hm] at h; simp at h
        | rBody rb eb => rw [hm] at h; simp at h
        | rMembers rm em => rw [hm] at h; simp at h
    · -- CreateAnnotationMember vs one pair of SkipNamePairs
      intro t bytes m rest e h
      simp only [matExec] at h
      cases hleb : DecodeUnsignedLeb128 bytes with
      | none => rw [hleb] at h; simp at h
      | some p =>
        obtain ⟨ni, r1⟩ := p
        rw [hleb] at h
        dsimp only at h
        cases hf : rs.FindMemberMethodReturnType t (rs.GetStringData ni) with
        | none => rw [hf] at h; simp at h
        | some mret =>
          rw [hf] at h
          dsimp only at h
          cases hv : matExec rs n (.val r1 (some mret) .kAllObjects) with
          | rVal rv =>
            rw [hv] at h
            cases rv with
            | ok avv rest2 =>
              dsimp only at h
              simp only [MatRes.rMember.injEq, Option.some.injEq, Prod.mk.injEq] at h
              refine ⟨ni, r1, rfl, ?_⟩
              have hone := ih1 r1 (some mret) .kAllObjects avv rest2 hv
              rw [h.1.2] at hone
              exact skip_mono n _ _ hone
            | err ty ex => dsimp only at h; simp at h
            | oob => dsimp only at h; simp at h
          | rElems rr ee => rw [hv] at h; simp at h
          | rBody rb eb => rw [hv] at h; simp at h
          | rMembers rm em => rw [hv] at h; simp at h
          | rMember rm em => rw [hv] at h; simp at h
    · -- ProcessEncodedAnnotation vs the Annotation skip shape
      intro bytes o rest e h
      simp only [matExec] at h
      cases hleb1 : DecodeUnsignedLeb128 bytes with
      | none => rw [hleb1] at h; simp at h
      | some p =>
        obtain ⟨ti, r1⟩ := p
        rw [hleb1] at h
        dsimp only at h
        cases hleb2 : DecodeUnsignedLeb128 r1 with
        | none => rw [hleb2] at h; simp at h
        | some p2 =>
          obtain ⟨size, r2⟩ := p2
          rw [hleb2] at h
          dsimp only at h
          cases hres : rs.ResolveType ti with
          | none => rw [hres] at h; simp at h
          | some cls =>
            rw [hres] at h
            dsimp only at h
            cases hm : matExec rs n (.members ti size r2) with
            | rMembers rm em =>
              rw [hm] at h
              cases rm with
              | none => simp at h
              | some pm =>
                obtain ⟨mems, rest2⟩ := pm
                dsimp only at h
                cases hc : rs.CreateAnnotationObj ti mems with
                | none => rw [hc] at h; simp at h
                | some ob =>
                  rw [hc] at h
                  dsimp only at h
                  simp only [MatRes.rBody.injEq, Option.some.injEq, Prod.mk.injEq] at h
                  have hp := ih3 ti size r2 mems rest2 em hm
                  refine ⟨ti, r1, size, r2, rfl, hleb2, ?_⟩
                  rw [h.1.2] at hp
                  exact skip_mono n _ _ hp
            | rVal rv => rw [hm] at h; simp at h
            | rElems rr ee => rw [hm] at h; simp at h
            | rBody rb eb => rw [hm] at h; simp at h
            | rMember rm2 em2 => rw [hm] at h; simp at h

/-- C1: for every input on which the decode operation
(`ProcessAnnotationValue`) succeeds, the skip operation
(`SkipAnnotationValue`) succeeds and advances the cursor to exactly the
same position — the two consume byte-identical spans, for all kinds
including nested Array and Annotation values of arbitrary depth. -/
theorem skip_decode_parity (fuel : Nat) (rs : ResolutionService) (bytes : List Nat)
    (ac : Option MirrorCls) (style : AnnotationResultStyle) (avv : AnnotationValue)
    (rest : List Nat)
    (h : ProcessAnnotationValue rs fuel bytes ac style = .ok avv rest) :
    SkipAnnotationValue fuel bytes = some rest := by
  have hm : matExec rs fuel (.val bytes ac style) = .rVal (.ok avv rest) := by
    unfold ProcessAnnotationValue at h
    cases hx : matExec rs fuel (.val bytes ac style) with
    | rVal r => rw [hx] at h; dsimp only at h; rw [h]
    | rElems r e => rw [hx] at h; simp at h
    | rBody r e => rw [hx] at h; simp at h
    | rMembers r e => rw [hx] at h; simp at h
    | rMember r e => rw [hx] at h; simp at h
  exact (parity_all rs fuel).1 bytes ac style avv rest hm

/-- C1 witness: an Array containing a nested Annotation (with a member)
and a Byte — decode succeeds consuming the whole input, and skip consumes
exactly the same bytes. -/
theorem skip_decode_parity_witness :
    SkipAnnotationValue 8 [0x1f, 2, 0x1e, 7, 1, 0, 0x04, 9, 0x00, 5] = some [] :=
  skip_decode_parity 8 demoRs [0x1f, 2, 0x1e, 7, 1, 0, 0x04, 9, 0x00, 5]
    (some (.arrayOf (.refCls 3))) .kPrimitivesOrObjects
    ⟨.jL (some (.arrayObj [.sL (some (.annoObj 7 [("a",
        some (.boxedObj .kPrimInt (.jI 9)))])), .sL none])), kDexAnnotationArray⟩
    [] rfl

/-! ## C9: what a Stop (kVisitBreak) from a callback aborts. -/

theorem isRecordBreak_of_not_rec {e : VisitEvent} (h : isRecEvent e = false) :
    isRecordBreak e = false := by
  cases e <;> simp_all [isRecEvent, isRecordBreak]

theorem VisitElement_not_rec (av : AnnotationVisitor) (en : String) (d i : Nat)
    (avv : AnnotationValue) : isRecEvent (VisitElement av en d i avv).2 = false := by
  unfold VisitElement
  split_ifs <;> rfl

theorem vis_no_rec (rs : ResolutionService) (av : AnnotationVisitor) :
    ∀ fuel req st r evs, visExec rs av fuel req = some (st, r, evs) →
      ∀ ev ∈ evs, isRecEvent ev = false := by
  intro fuel
  induction fuel with
  | zero => intro req st r evs h; simp [visExec] at h
  | succ n ih =>
    intro req st r evs h
    cases req with
    | one bytes element_name depth element_index =>
      simp only [visExec] at h
      cases hpv : pavView (ProcessAnnotationValue rs (n + 1) bytes none .kAllRaw) bytes with
      | none => rw [hpv] at h; simp at h
      | some trip =>
        obtain ⟨ic, avv, after⟩ := trip
        rw [hpv] at h
        dsimp only at h
        by_cases hArr : avv.type_ = kDexAnnotationArray
        · rw [if_pos hArr] at h
          cases bytes with
          | nil => simp at h
          | cons b0 r0 =>
            dsimp only at h
            cases hleb : DecodeUnsignedLeb128 r0 with
            | none => rw [hleb] at h; simp at h
            | some p =>
              obtain ⟨asize, r1⟩ := p
              rw [hleb] at h
              dsimp only at h
              split at h
              · simp at h
              · rename_i st2 r2 evs2 hrec
                simp only [Option.some.injEq, Prod.mk.injEq] at h
                obtain ⟨hst, hr, hevs⟩ := h
                intro ev hev
                rw [← hevs] at hev
                simp only [List.mem_cons] at hev
                rcases hev with rfl | hev
                · exact VisitElement_not_rec av element_name depth element_index avv
                · exact ih _ _ _ _ hrec ev hev
        · rw [if_neg hArr] at h
          by_cases hAnno : avv.type_ = kDexAnnotationAnno
          · rw [if_pos hAnno] at h
            cases bytes with
            | nil => simp at h
            | cons b0 r0 =>
              dsimp only at h
              cases hleb : DecodeUnsignedLeb128 r0 with
              | none => rw [hleb] at h; simp at h
              | some p =>
                obtain ⟨ti, r1⟩ := p
                rw [hleb] at h
                dsimp only at h
                cases hleb2 : DecodeUnsignedLeb128 r1 with
                | none => rw [hleb2] at h; simp at h
                | some p2 =>
                  obtain ⟨size, r2⟩ := p2
                  rw [hleb2] at h
                  dsimp only at h
                  cases hsk : SkipNamePairs (n + 1) size r2 with
                  | none => rw [hsk] at h; simp at h
                  | some r3 =>
                    rw [hsk] at h
                    dsimp only at h
                    simp only [Option.some.injEq, Prod.mk.injEq] at h
                    obtain ⟨hst, hr, hevs⟩ := h
                    intro ev hev
                    rw [← hevs] at hev
                    simp only [List.mem_singleton] at hev
                    subst hev
                    exact VisitElement_not_rec av element_name depth element_index avv
          · rw [if_neg hAnno] at h
            by_cases hic : ic = true
            · rw [if_pos hic] at h
              simp only [Option.some.injEq, Prod.mk.injEq] at h
              obtain ⟨hst, hr, hevs⟩ := h
              intro ev hev
              rw [← hevs] at hev
              simp only [List.mem_singleton] at hev
              subst hev
              exact VisitElement_not_rec av element_name depth element_index avv
            · rw [if_neg hic] at h
              cases hsk : SkipAnnotationValue (n + 1) bytes with
              | none => rw [hsk] at h; simp at h
              | some r2 =>
                rw [hsk] at h
                dsimp only at h
                simp only [Option.some.injEq, Prod.mk.injEq] at h
                obtain ⟨hst, hr, hevs⟩ := h
                intro ev hev
                rw [← hevs] at hev
                simp only [List.mem_singleton] at hev
                subst hev
                exact VisitElement_not_rec av element_name depth element_index avv
    | arr remaining bytes element_name next_depth index st0 =>
      cases remaining with
      | zero =>
        simp only [visExec, Option.some.injEq, Prod.mk.injEq] at h
        obtain ⟨hst, hr, hevs⟩ := h
        intro ev hev
        rw [← hevs] at hev
        simp at hev
      | succ rem =>
        simp only [visExec] at h
        by_cases hbr : st0 = VisitorStatus.kVisitBreak
        · rw [if_pos hbr] at h
          cases hsk : SkipValues (n + 1) (rem + 1) bytes with
          | none => rw [hsk] at h; simp at h
          | some r2 =>
            rw [hsk] at h
            dsimp only at h
            simp only [Option.some.injEq, Prod.mk.injEq] at h
            obtain ⟨hst, hr, hevs⟩ := h
            intro ev hev
            rw [← hevs] at hev
            simp at hev
        · rw [if_neg hbr] at h
          split at h
          · simp at h
          · rename_i st2 r2 evs2 hrec1
            split at h
            · simp at h
            · rename_i stF r3 evs3 hrec2
              simp only [Option.some.injEq, Prod.mk.injEq] at h
              obtain ⟨hst, hr, hevs⟩ := h
              intro ev hev
              rw [← hevs] at hev
              simp only [List.mem_append] at hev
              rcases hev with hev | hev
              · exact ih _ _ _ _ hrec1 ev hev
              · exact ih _ _ _ _ hrec2 ev hev

theorem elems_loop_no_rec (rs : ResolutionService) (av : AnnotationVisitor) (fuel : Nat) :
    ∀ count bytes evs, VisitElementsLoop rs av fuel count bytes = some evs →
      ∀ ev ∈ evs, isRecEvent ev = false := by
  intro count
  induction count with
  | zero =>
    intro bytes evs h
    simp only [VisitElementsLoop, Option.some.injEq] at h
    intro ev hev
    rw [← h] at hev
    simp at hev
  | succ c ih =>
    intro bytes evs h
    simp only [VisitElementsLoop] at h
    cases hleb : DecodeUnsignedLeb128 bytes with
    | none => rw [hleb] at h; simp at h
    | some p =>
      obtain ⟨ni, r1⟩ := p
      rw [hleb] at h
      dsimp only at h
      split at h
      · simp at h
      · rename_i st2 r2 evs2 hvis
        by_cases hbr : st2 = VisitorStatus.kVisitBreak
        · rw [if_pos hbr] at h
          simp only [Option.some.injEq] at h
          intro ev hev
          rw [← h] at hev
          exact vis_no_rec rs av _ _ _ _ _ hvis ev hev
        · rw [if_neg hbr] at h
          cases hrec : VisitElementsLoop rs av fuel c r2 with
          | none => rw [hrec] at h; simp at h
          | some evs3 =>
            rw [hrec] at h
            simp only [Option.map_some'] at h
            simp only [Option.some.injEq] at h
            intro ev hev
            rw [← h] at hev
            simp only [List.mem_append] at hev
            rcases hev with hev | hev
            · exact vis_no_rec rs av _ _ _ _ _ hvis ev hev
            · exact ih r2 evs3 hrec ev hev

theorem dropLast_forall {α : Type} (p : α → Bool) (a : α) (l : List α)
    (ha : p a = false) (hl : ∀ e ∈ l.dropLast, p e = false) :
    ∀ e ∈ (a :: l).dropLast, p e = false := by
  cases l with
  | nil => intro e he; simp at he
  | cons x xs =>
    intro e he
    rw [List.dropLast_cons₂] at he
    simp only [List.mem_cons] at he
    rcases he with rfl | he
    · exact ha
    · exact hl e he

theorem dropLast_forall_append {α : Type} (p : α → Bool) (l1 l2 : List α)
    (h1 : ∀ e ∈ l1, p e = false) (h2 : ∀ e ∈ l2.dropLast, p e = false) :
    ∀ e ∈ (l1 ++ l2).dropLast, p e = false := by
  induction l1 with
  | nil => simpa using h2
  | cons a t ih =>
    intro e he
    exact dropLast_forall p a (t ++ l2) (h1 a (by simp))
      (ih fun x hx => h1 x (by simp [hx])) e he

theorem records_break_last (rs : ResolutionService) (av : AnnotationVisitor) (fuel : Nat) :
    ∀ items tr, VisitRecordsLoop rs av fuel items = some tr →
      ∀ e ∈ tr.dropLast, isRecordBreak e = false := by
  intro items
  induction items with
  | nil =>
    intro tr h
    simp only [VisitRecordsLoop, Option.some.injEq] at h
    intro e he
    rw [← h] at he
    simp at he
  | cons item rest ih =>
    intro tr h
    simp only [VisitRecordsLoop] at h
    cases hleb : DecodeUnsignedLeb128 item.annotation_ with
    | none => rw [hleb] at h; simp at h
    | some p =>
      obtain ⟨ti, r1⟩ := p
      rw [hleb] at h
      dsimp only at h
      cases hst : av.visitAnnotationRecord (rs.GetTypeDescriptor ti) item.visibility_ with
      | kVisitBreak =>
        rw [hst] at h
        dsimp only at h
        simp only [Option.some.injEq] at h
        intro e he
        rw [← h] at he
        simp at he
      | kVisitNext =>
        rw [hst] at h
        dsimp only at h
        cases hrec : VisitRecordsLoop rs av fuel rest with
        | none => rw [hrec] at h; simp at h
        | some tr2 =>
          rw [hrec] at h
          simp only [Option.map_some'] at h
          simp only [Option.some.injEq] at h
          rw [← h]
          exact dropLast_forall _ _ _ (by simp [isRecordBreak]) (ih tr2 hrec)
      | kVisitInner =>
        rw [hst] at h
        dsimp only at h
        cases hleb2 : DecodeUnsignedLeb128 r1 with
        | none => rw [hleb2] at h; simp at h
        | some p2 =>
          obtain ⟨size, r2⟩ := p2
          rw [hleb2] at h
          dsimp only at h
          cases hel : VisitElementsLoop rs av fuel size r2 with
          | none => rw [hel] at h; simp at h
          | some evs =>
            rw [hel] at h
            dsimp only at h
            cases hrec : VisitRecordsLoop rs av fuel rest with
            | none => rw [hrec] at h; simp at h
            | some tr2 =>
              rw [hrec] at h
              simp only [Option.map_some'] at h
              simp only [Option.some.injEq] at h
              rw [← h]
              refine dropLast_forall _ _ _ (by simp [isRecordBreak]) ?_
              refine dropLast_forall_append _ _ _ ?_ (ih tr2 hrec)
              intro e he
              exact isRecordBreak_of_not_rec (elems_loop_no_rec rs av fuel size r2 evs hel e he)

/-- C9 counterexample: with a visitor whose element callback returns Stop
(`kVisitBreak`) and two annotation records, the trace shows the traversal
does not abort: after the first record's element callback returns Stop,
the second record's callbacks are still invoked. -/
theorem element_break_does_not_abort :
    VisitClassAnnotations demoRs demoVisitorElemBreak 10 demoTwoRecords
      = some [.recEvent "LT7;" 1 .kVisitInner,
              .elemEvent "a" kDexAnnotationInt (.jI 9) .kVisitBreak,
              .recEvent "LT8;" 1 .kVisitInner,
              .elemEvent "a" kDexAnnotationInt (.jI 5) .kVisitBreak] := rfl

/-- C9 (amended): a Stop returned by the record-level callback aborts the
entire traversal immediately — in any completed traversal trace, a
record-level event whose status is Stop can only be the final event, so
no callback of any kind follows it.  (A Stop from an element or
array-slot callback only ends the enclosing sequence's iteration;
traversal continues with the next annotation record, as the
counterexample shows.) -/
theorem record_break_aborts_traversal (rs : ResolutionService) (av : AnnotationVisitor)
    (fuel : Nat) (annotation_set : List AnnotationItem) (tr : List VisitEvent)
    (h : VisitClassAnnotations rs av fuel annotation_set = some tr) :
    ∀ e ∈ tr.dropLast, isRecordBreak e = false :=
  records_break_last rs av fuel annotation_set tr h

/-- C9 witness: a concrete two-record traversal; the theorem applies to
its trace. -/
theorem record_break_aborts_traversal_witness :
    isRecordBreak (.recEvent "LT7;" 1 .kVisitNext) = false :=
  record_break_aborts_traversal demoRs demoVisitorNext 10 demoTwoRecords
    [.recEvent "LT7;" 1 .kVisitNext, .recEvent "LT8;" 1 .kVisitNext] rfl
    (.recEvent "LT7;" 1 .kVisitNext) (by simp)

end DexAnno


